import Mathlib

/-!
Verification of the react-three-lightmap baking core against its
natural-language specification.

The development shallowly embeds the relevant parts of the source:

* `src/core/IrradianceRenderer.tsx` — the dilation write step
  (`storeLightMapValue`), texel decoding (`getTexelInfo`) and the
  per-pass orchestration (`runBakingPasses`);
* `src/core/AutoUV2.tsx` — atlas auto-sizing (`autoSelectSize`) and the
  per-box UV2 write-back arithmetic of `computeAutoUV2Layout`;
* `src/core/IrradianceLightProbe.tsx` — the per-pixel solid-angle weight
  table (`probePixelAreaLookup`);
* `src/core/lightScene.ts` together with `src/core/workbench.ts` — scene
  staging (`withLightScene` over `traverseSceneItems`).

Float32 buffers are modelled as total functions `ℕ → ℚ` (exact
arithmetic; the properties checked here are about control flow, index
arithmetic and write precedence, not rounding).  JavaScript `%` on
numbers is truncated remainder, hence `Int.tmod` below.
-/

namespace RTL

/-! ## Dilation write step (`storeLightMapValue`, IrradianceRenderer.tsx) -/

/-- Model of a THREE.Vector4 rgba value (`tmpRgba` in the source). -/
structure Rgba where
  x : ℚ
  y : ℚ
  z : ℚ
  w : ℚ
deriving DecidableEq

/-- `Vector4#toArray(buf, base)`: write the four components at
`base .. base+3` of the flat buffer. -/
def writeRgba (buf : ℕ → ℚ) (base : ℕ) (v : Rgba) : ℕ → ℚ :=
  fun i =>
    if i = base then v.x
    else if i = base + 1 then v.y
    else if i = base + 2 then v.z
    else if i = base + 3 then v.w
    else buf i

/-- `const offDirX = [1, 1, 0, -1, -1, -1, 0, 1]` — 3x3 brush columns. -/
def offDirX : List ℤ := [1, 1, 0, -1, -1, -1, 0, 1]

/-- `const offDirY = [0, 1, 1, 1, 0, -1, -1, -1]` — 3x3 brush rows. -/
def offDirY : List ℤ := [0, 1, 1, 1, 0, -1, -1, -1]

/-- One iteration of the `for (let offDir = 0; offDir < 8; ...)` loop in
`storeLightMapValue`: conditionally propagate the combined value `v` to
the brush neighbour given by the offset pair `off`.  JS `%` is truncated
remainder (`Int.tmod`); the resulting index is non-negative in every
well-formed call, so `Int.toNat` is exact there. -/
def brushStep (atlasData : ℕ → ℚ) (atlasWidth totalTexelCount : ℕ)
    (texelX texelRowStart : ℕ) (v : Rgba) (buf : ℕ → ℚ) (off : ℤ × ℤ) :
    ℕ → ℚ :=
  let offX := off.1
  let offY := off.2
  let offRowX := (((atlasWidth : ℤ) + (texelX : ℤ) + offX).tmod (atlasWidth : ℤ)).toNat
  let offRowStart :=
    (((totalTexelCount : ℤ) + (texelRowStart : ℤ) + offY * (atlasWidth : ℤ)).tmod
      (totalTexelCount : ℤ)).toNat
  let offTexelBase := (offRowStart + offRowX) * 4
  let offTexelFaceEnc := atlasData (offTexelBase + 2)
  let isStrongNeighbour := offX = 0 ∨ offY = 0
  let isUnfilled := buf (offTexelBase + 3) = 0
  if offTexelFaceEnc = 0 ∧ (isStrongNeighbour ∨ isUnfilled) then
    writeRgba buf offTexelBase v
  else
    buf

/-- `storeLightMapValue(atlasData, atlasWidth, totalTexelCount, texelIndex,
passOutputData)` from `IrradianceRenderer.tsx`: set `tmpRgba.w = 1`, write
the combined value at the texel's own slot, then run the 8-direction
dilation brush over the (live) pass output buffer. -/
def storeLightMapValue (atlasData : ℕ → ℚ) (atlasWidth totalTexelCount texelIndex : ℕ)
    (rgba : Rgba) (passOutputData : ℕ → ℚ) : ℕ → ℚ :=
  let v : Rgba := { rgba with w := 1 }
  let mainOffTexelBase := texelIndex * 4
  let buf0 := writeRgba passOutputData mainOffTexelBase v
  let texelX := texelIndex % atlasWidth
  let texelRowStart := texelIndex - texelX
  (offDirX.zip offDirY).foldl
    (brushStep atlasData atlasWidth totalTexelCount texelX texelRowStart v) buf0

/-- Closed form of the wrapped column / row computation
`((atlasWidth + texelX + offX) % atlasWidth)` used by the brush. -/
def wrapIdx (n i : ℕ) (off : ℤ) : ℕ :=
  (((n : ℤ) + (i : ℤ) + off).tmod (n : ℤ)).toNat

/-- Atlas buffer slot (base offset into the rgba-interleaved buffer) that
the brush touches for offset `off` from texel `(x, y)` of a `w × h`
atlas; offset `(0, 0)` denotes the texel's own slot. -/
def brushSlot (w h x y : ℕ) (off : ℤ × ℤ) : ℕ :=
  (wrapIdx h y off.2 * w + wrapIdx w x off.1) * 4

section WrapLemmas

theorem wrapIdx_eq_mod (n i : ℕ) (off : ℤ) (hn : 0 < n) (hoff : -1 ≤ off) :
    wrapIdx n i off = ((n + i + off).toNat : ℕ) % n := by
  unfold wrapIdx
  have hnn : (0 : ℤ) ≤ (n : ℤ) + (i : ℤ) + off := by omega
  have hcast : (n : ℤ) + (i : ℤ) + off = (((n + i + off).toNat : ℕ) : ℤ) := by omega
  rw [hcast, ← Int.ofNat_tmod]
  exact Int.toNat_ofNat _

theorem wrapIdx_zero (n i : ℕ) (hi : i < n) : wrapIdx n i 0 = i := by
  rw [wrapIdx_eq_mod n i 0 (by omega) (by omega)]
  have h1 : ((n : ℤ) + (i : ℤ) + 0).toNat = n + i := by omega
  rw [h1, Nat.add_mod_left, Nat.mod_eq_of_lt hi]

theorem wrapIdx_one (n i : ℕ) (hi : i < n) :
    wrapIdx n i 1 = if i + 1 = n then 0 else i + 1 := by
  rw [wrapIdx_eq_mod n i 1 (by omega) (by omega)]
  have h1 : ((n : ℤ) + (i : ℤ) + 1).toNat = n + (i + 1) := by omega
  rw [h1, Nat.add_mod_left]
  by_cases h : i + 1 = n
  · simp [h, Nat.mod_self]
  · rw [Nat.mod_eq_of_lt (by omega), if_neg h]

theorem wrapIdx_negOne (n i : ℕ) (hi : i < n) :
    wrapIdx n i (-1) = if i = 0 then n - 1 else i - 1 := by
  rw [wrapIdx_eq_mod n i (-1) (by omega) (by omega)]
  by_cases h : i = 0
  · subst h
    have h1 : ((n : ℤ) + (0 : ℕ) + (-1)).toNat = n - 1 := by omega
    rw [h1, Nat.mod_eq_of_lt (by omega), if_pos rfl]
  · have h1 : ((n : ℤ) + (i : ℤ) + (-1)).toNat = n + (i - 1) := by omega
    rw [h1, Nat.add_mod_left, Nat.mod_eq_of_lt (by omega), if_neg h]

theorem wrapIdx_lt (n i : ℕ) (off : ℤ) (hi : i < n) (hoff : -1 ≤ off) :
    wrapIdx n i off < n := by
  rw [wrapIdx_eq_mod n i off (by omega) hoff]
  exact Nat.mod_lt _ (by omega)

/-- With at least 3 columns/rows, the wrapped positions of the three
offsets `-1, 0, 1` are pairwise distinct. -/
theorem wrapIdx_inj (n i : ℕ) (hn : 3 ≤ n) (hi : i < n) (d d' : ℤ)
    (hd : d = -1 ∨ d = 0 ∨ d = 1) (hd' : d' = -1 ∨ d' = 0 ∨ d' = 1)
    (hne : d ≠ d') : wrapIdx n i d ≠ wrapIdx n i d' := by
  have h0 := wrapIdx_zero n i hi
  have h1 := wrapIdx_one n i hi
  have hm := wrapIdx_negOne n i hi
  rcases hd with rfl | rfl | rfl <;> rcases hd' with rfl | rfl | rfl <;>
    (try exact absurd rfl hne) <;>
    (simp only [h0, h1, hm]; split_ifs <;> omega)

end WrapLemmas

section SlotLemmas

theorem euclid_unique (w a b a' b' : ℕ) (hb : b < w) (hb' : b' < w)
    (heq : a * w + b = a' * w + b') : a = a' ∧ b = b' := by
  have h1 := Nat.mul_add_mod w a b
  have h2 := Nat.mul_add_mod w a' b'
  rw [mul_comm a w, mul_comm a' w] at heq
  have hbb : b = b' := by
    have hmod : b % w = b' % w := by rw [← h1, ← h2, heq]
    rwa [Nat.mod_eq_of_lt hb, Nat.mod_eq_of_lt hb'] at hmod
  subst hbb
  have hml : w * a = w * a' := Nat.add_right_cancel heq
  exact ⟨Nat.eq_of_mul_eq_mul_left (by omega) hml, rfl⟩

theorem brushSlot_mod_four (w h x y : ℕ) (o : ℤ × ℤ) :
    brushSlot w h x y o % 4 = 0 := by
  unfold brushSlot
  exact Nat.mul_mod_left _ 4

theorem slot_channels_disjoint (B B' : ℕ) (hB : B % 4 = 0) (hB' : B' % 4 = 0)
    (hne : B ≠ B') (c c' : ℕ) (hc : c < 4) (hc' : c' < 4) : B + c ≠ B' + c' := by
  omega

/-- With a `≥ 3 × ≥ 3` atlas, the nine brush slots (the texel's own and
its eight wrapped neighbours) are pairwise distinct. -/
theorem brushSlot_inj (w h x y : ℕ) (hw : 3 ≤ w) (hh : 3 ≤ h)
    (hx : x < w) (hy : y < h) (o o' : ℤ × ℤ)
    (ho1 : o.1 = -1 ∨ o.1 = 0 ∨ o.1 = 1) (ho2 : o.2 = -1 ∨ o.2 = 0 ∨ o.2 = 1)
    (ho1' : o'.1 = -1 ∨ o'.1 = 0 ∨ o'.1 = 1) (ho2' : o'.2 = -1 ∨ o'.2 = 0 ∨ o'.2 = 1)
    (hne : o ≠ o') : brushSlot w h x y o ≠ brushSlot w h x y o' := by
  intro heq
  unfold brushSlot at heq
  have hsum : wrapIdx h y o.2 * w + wrapIdx w x o.1 =
      wrapIdx h y o'.2 * w + wrapIdx w x o'.1 := by omega
  have hcw : wrapIdx w x o.1 < w := wrapIdx_lt w x o.1 hx (by omega)
  have hcw' : wrapIdx w x o'.1 < w := wrapIdx_lt w x o'.1 hx (by omega)
  obtain ⟨hrow, hcol⟩ := euclid_unique w _ _ _ _ hcw hcw' hsum
  have hcomp : o.1 ≠ o'.1 ∨ o.2 ≠ o'.2 := by
    by_contra hc
    push_neg at hc
    exact hne (Prod.ext_iff.mpr ⟨hc.1, hc.2⟩)
  rcases hcomp with hne1 | hne2
  · exact wrapIdx_inj w x hw hx o.1 o'.1 ho1 ho1' hne1 hcol
  · exact wrapIdx_inj h y hh hy o.2 o'.2 ho2 ho2' hne2 hrow

theorem brushSlot_center (w h x y : ℕ) (hx : x < w) (hy : y < h) :
    brushSlot w h x y (0, 0) = (y * w + x) * 4 := by
  unfold brushSlot
  rw [wrapIdx_zero w x hx, wrapIdx_zero h y hy]

end SlotLemmas

section WriteLemmas

/-- Component `c ∈ {0,1,2,3}` of an rgba value as laid out by `toArray`. -/
def rgbaComp (v : Rgba) : ℕ → ℚ
  | 0 => v.x
  | 1 => v.y
  | 2 => v.z
  | 3 => v.w
  | _ => 0

theorem writeRgba_comp (buf : ℕ → ℚ) (base : ℕ) (v : Rgba) (c : ℕ) (hc : c < 4) :
    writeRgba buf base v (base + c) = rgbaComp v c := by
  unfold writeRgba
  match c, hc with
  | 0, _ => simp [rgbaComp]
  | 1, _ => simp [rgbaComp]
  | 2, _ => simp [rgbaComp]
  | 3, _ => simp [rgbaComp]

theorem writeRgba_ne (buf : ℕ → ℚ) (base : ℕ) (v : Rgba) (i : ℕ)
    (hi : ∀ c < 4, i ≠ base + c) : writeRgba buf base v i = buf i := by
  have h0 : i ≠ base := by have := hi 0 (by omega); omega
  have h1 : i ≠ base + 1 := hi 1 (by omega)
  have h2 : i ≠ base + 2 := hi 2 (by omega)
  have h3 : i ≠ base + 3 := hi 3 (by omega)
  unfold writeRgba
  rw [if_neg h0, if_neg h1, if_neg h2, if_neg h3]

end WriteLemmas

section BrushFold

variable (atlasData : ℕ → ℚ) (w h x y : ℕ) (v : Rgba)

/-- Under the well-formed instantiation (`texelX = x`, `texelRowStart = y*w`,
`totalTexelCount = w*h`), one brush iteration is a conditional rgba write
at the wrapped neighbour slot. -/
theorem brushStep_eq_slot (hw : 0 < w) (hh : 0 < h) (hy : y < h)
    (buf : ℕ → ℚ) (off : ℤ × ℤ) (hoff2 : -1 ≤ off.2) :
    brushStep atlasData w (w * h) x (y * w) v buf off =
      if atlasData (brushSlot w h x y off + 2) = 0 ∧
          ((off.1 = 0 ∨ off.2 = 0) ∨ buf (brushSlot w h x y off + 3) = 0) then
        writeRgba buf (brushSlot w h x y off) v
      else
        buf := by
  have hrow :
      (((w * h : ℕ) : ℤ) + ((y * w : ℕ) : ℤ) + off.2 * (w : ℤ)).tmod ((w * h : ℕ) : ℤ) =
        ((wrapIdx h y off.2 * w : ℕ) : ℤ) := by
    have hm : (0 : ℤ) ≤ (h : ℤ) + (y : ℤ) + off.2 := by omega
    have hsplit : ((w * h : ℕ) : ℤ) + ((y * w : ℕ) : ℤ) + off.2 * (w : ℤ) =
        ((((h : ℤ) + (y : ℤ) + off.2).toNat * w : ℕ) : ℤ) := by
      have h1 : (((((h : ℤ) + (y : ℤ) + off.2).toNat * w : ℕ)) : ℤ) =
          ((((h : ℤ) + (y : ℤ) + off.2).toNat : ℕ) : ℤ) * (w : ℤ) := by
        push_cast
        ring
      rw [h1, Int.toNat_of_nonneg hm]
      push_cast
      ring
    rw [hsplit, ← Int.ofNat_tmod]
    congr 1
    have hwrap : wrapIdx h y off.2 = ((h : ℤ) + (y : ℤ) + off.2).toNat % h := by
      rw [wrapIdx_eq_mod h y off.2 hh hoff2]
    rw [hwrap, mul_comm w h, Nat.mul_mod_mul_right]
  simp only [brushStep, brushSlot, wrapIdx]
  rw [hrow, Int.toNat_ofNat]
  simp only [wrapIdx]

theorem brushStep_preserve (hw : 0 < w) (hh : 0 < h) (hy : y < h)
    (buf : ℕ → ℚ) (off : ℤ × ℤ) (hoff2 : -1 ≤ off.2) (i : ℕ)
    (hi : ∀ c < 4, i ≠ brushSlot w h x y off + c) :
    brushStep atlasData w (w * h) x (y * w) v buf off i = buf i := by
  rw [brushStep_eq_slot atlasData w h x y v hw hh hy buf off hoff2]
  split_ifs with hcond
  · exact writeRgba_ne buf _ v i hi
  · rfl

theorem foldl_brushStep_preserve (hw : 0 < w) (hh : 0 < h) (hy : y < h)
    (offs : List (ℤ × ℤ)) (hoffs : ∀ o ∈ offs, -1 ≤ o.2)
    (buf : ℕ → ℚ) (i : ℕ)
    (hi : ∀ o ∈ offs, ∀ c < 4, i ≠ brushSlot w h x y o + c) :
    offs.foldl (brushStep atlasData w (w * h) x (y * w) v) buf i = buf i := by
  induction offs generalizing buf with
  | nil => rfl
  | cons o rest ih =>
    rw [List.foldl_cons]
    rw [ih (fun o' ho' => hoffs o' (List.mem_cons_of_mem o ho'))
      _ (fun o' ho' => hi o' (List.mem_cons_of_mem o ho'))]
    exact brushStep_preserve atlasData w h x y v hw hh hy buf o
      (hoffs o (List.mem_cons_self o rest)) i (hi o (List.mem_cons_self o rest))

/-- Evaluating the brush fold at a target offset's slot: later iterations
leave the slot alone, earlier iterations touch other slots, so the final
value is the target iteration's conditional write, with the condition read
off the buffer as it was when the fold started. -/
theorem foldl_brushStep_eval (hw : 0 < w) (hh : 0 < h) (hy : y < h)
    (offs : List (ℤ × ℤ)) (hoffs : ∀ o ∈ offs, -1 ≤ o.2)
    (hdist : offs.Pairwise (fun o o' => brushSlot w h x y o ≠ brushSlot w h x y o'))
    (tar : ℤ × ℤ) (htar : tar ∈ offs) (buf : ℕ → ℚ) (c : ℕ) (hc : c < 4) :
    offs.foldl (brushStep atlasData w (w * h) x (y * w) v) buf
        (brushSlot w h x y tar + c) =
      if atlasData (brushSlot w h x y tar + 2) = 0 ∧
          ((tar.1 = 0 ∨ tar.2 = 0) ∨ buf (brushSlot w h x y tar + 3) = 0) then
        rgbaComp v c
      else
        buf (brushSlot w h x y tar + c) := by
  induction offs generalizing buf with
  | nil => exact absurd htar (List.not_mem_nil tar)
  | cons o rest ih =>
    rw [List.foldl_cons]
    rcases List.mem_cons.mp htar with rfl | htar'
    · -- the head is the target: its write happens now and survives the rest
      have hrest : ∀ o' ∈ rest, brushSlot w h x y tar ≠ brushSlot w h x y o' :=
        fun o' ho' => (List.pairwise_cons.mp hdist).1 o' ho'
      rw [foldl_brushStep_preserve atlasData w h x y v hw hh hy rest
        (fun o' ho' => hoffs o' (List.mem_cons_of_mem tar ho')) _ _
        (fun o' ho' c' hc' =>
          slot_channels_disjoint _ _ (brushSlot_mod_four w h x y tar)
            (brushSlot_mod_four w h x y o') (hrest o' ho') c c' hc hc')]
      rw [brushStep_eq_slot atlasData w h x y v hw hh hy buf tar
        (hoffs tar (List.mem_cons_self tar rest))]
      split_ifs with hcond
      · exact writeRgba_comp buf _ v c hc
      · rfl
    · -- the head is a different slot: it leaves the target's channels alone
      have hne : brushSlot w h x y o ≠ brushSlot w h x y tar :=
        (List.pairwise_cons.mp hdist).1 tar htar'
      have hstep : ∀ c' < 4,
          brushStep atlasData w (w * h) x (y * w) v buf o
              (brushSlot w h x y tar + c') =
            buf (brushSlot w h x y tar + c') := by
        intro c' hc'
        exact brushStep_preserve atlasData w h x y v hw hh hy buf o
          (hoffs o (List.mem_cons_self o rest)) _
          (fun c'' hc'' =>
            slot_channels_disjoint _ _ (brushSlot_mod_four w h x y tar)
              (brushSlot_mod_four w h x y o) hne.symm c' c'' hc' hc'')
      rw [ih (fun o' ho' => hoffs o' (List.mem_cons_of_mem o ho'))
        (List.pairwise_cons.mp hdist).2 htar', hstep c hc, hstep 3 (by omega)]

end BrushFold

section StoreCharacterization

theorem offsets_components : ∀ o ∈ offDirX.zip offDirY,
    (o.1 = -1 ∨ o.1 = 0 ∨ o.1 = 1) ∧ (o.2 = -1 ∨ o.2 = 0 ∨ o.2 = 1) ∧ o ≠ (0, 0) := by
  decide

theorem offsets_nodup : (offDirX.zip offDirY).Nodup := by decide

theorem offsets_pairwise_slots (w h x y : ℕ) (hw : 3 ≤ w) (hh : 3 ≤ h)
    (hx : x < w) (hy : y < h) :
    (offDirX.zip offDirY).Pairwise
      (fun o o' => brushSlot w h x y o ≠ brushSlot w h x y o') := by
  refine List.Pairwise.imp_of_mem ?_ offsets_nodup
  intro o o' ho ho' hne
  exact brushSlot_inj w h x y hw hh hx hy o o'
    (offsets_components o ho).1 (offsets_components o ho).2.1
    (offsets_components o' ho').1 (offsets_components o' ho').2.1 hne

theorem storeLightMapValue_eq_fold (atlas : ℕ → ℚ) (w h x y : ℕ)
    (hx : x < w) (rgba : Rgba) (buf : ℕ → ℚ) :
    storeLightMapValue atlas w (w * h) (y * w + x) rgba buf =
      (offDirX.zip offDirY).foldl
        (brushStep atlas w (w * h) x (y * w) { rgba with w := 1 })
        (writeRgba buf ((y * w + x) * 4) { rgba with w := 1 }) := by
  simp only [storeLightMapValue]
  have h1 : (y * w + x) % w = x := by
    rw [mul_comm y w, Nat.mul_add_mod, Nat.mod_eq_of_lt hx]
  rw [h1]
  have h2 : y * w + x - x = y * w := by omega
  rw [h2]

theorem center_channel_ne (w h x y : ℕ) (hw : 3 ≤ w) (hh : 3 ≤ h)
    (hx : x < w) (hy : y < h) (o : ℤ × ℤ) (ho : o ∈ offDirX.zip offDirY) :
    ∀ c < 4, ∀ c' < 4, (y * w + x) * 4 + c ≠ brushSlot w h x y o + c' := by
  intro c hc c' hc'
  rw [← brushSlot_center w h x y hx hy]
  exact slot_channels_disjoint _ _ (brushSlot_mod_four w h x y (0, 0))
    (brushSlot_mod_four w h x y o)
    (brushSlot_inj w h x y hw hh hx hy (0, 0) o (by simp) (by simp)
      (offsets_components o ho).1 (offsets_components o ho).2.1
      (Ne.symm (offsets_components o ho).2.2))
    c c' hc hc'

/-- The texel's own slot always receives the combined value with alpha 1. -/
theorem store_at_main (atlas : ℕ → ℚ) (w h x y : ℕ) (hw : 3 ≤ w) (hh : 3 ≤ h)
    (hx : x < w) (hy : y < h) (rgba : Rgba) (buf : ℕ → ℚ) (c : ℕ) (hc : c < 4) :
    storeLightMapValue atlas w (w * h) (y * w + x) rgba buf ((y * w + x) * 4 + c) =
      rgbaComp { rgba with w := 1 } c := by
  rw [storeLightMapValue_eq_fold atlas w h x y hx rgba buf]
  rw [foldl_brushStep_preserve atlas w h x y { rgba with w := 1 } (by omega) (by omega) hy
    (offDirX.zip offDirY) (fun o ho => by rcases (offsets_components o ho).2.1 with h1 | h1 | h1 <;> omega)
    _ _ (fun o ho c' hc' => center_channel_ne w h x y hw hh hx hy o ho c hc c' hc')]
  exact writeRgba_comp buf _ _ c hc

/-- Each of the eight wrapped brush neighbours receives the combined value
exactly when its atlas item-id channel is zero and it is either an
axis-aligned neighbour or still unwritten (alpha 0) in the pass output;
otherwise its four channels are untouched. -/
theorem store_at_neighbor (atlas : ℕ → ℚ) (w h x y : ℕ) (hw : 3 ≤ w) (hh : 3 ≤ h)
    (hx : x < w) (hy : y < h) (rgba : Rgba) (buf : ℕ → ℚ)
    (off : ℤ × ℤ) (hoff : off ∈ offDirX.zip offDirY) (c : ℕ) (hc : c < 4) :
    storeLightMapValue atlas w (w * h) (y * w + x) rgba buf (brushSlot w h x y off + c) =
      if atlas (brushSlot w h x y off + 2) = 0 ∧
          ((off.1 = 0 ∨ off.2 = 0) ∨ buf (brushSlot w h x y off + 3) = 0) then
        rgbaComp { rgba with w := 1 } c
      else
        buf (brushSlot w h x y off + c) := by
  rw [storeLightMapValue_eq_fold atlas w h x y hx rgba buf]
  rw [foldl_brushStep_eval atlas w h x y { rgba with w := 1 } (by omega) (by omega) hy
    (offDirX.zip offDirY) (fun o ho => by rcases (offsets_components o ho).2.1 with h1 | h1 | h1 <;> omega)
    (offsets_pairwise_slots w h x y hw hh hx hy) off hoff _ c hc]
  have hb3 : writeRgba buf ((y * w + x) * 4) { rgba with w := 1 } (brushSlot w h x y off + 3) =
      buf (brushSlot w h x y off + 3) :=
    writeRgba_ne buf _ _ _ (fun c' hc' =>
      Ne.symm (center_channel_ne w h x y hw hh hx hy off hoff c' hc' 3 (by omega)))
  have hbc : writeRgba buf ((y * w + x) * 4) { rgba with w := 1 } (brushSlot w h x y off + c) =
      buf (brushSlot w h x y off + c) :=
    writeRgba_ne buf _ _ _ (fun c' hc' =>
      Ne.symm (center_channel_ne w h x y hw hh hx hy off hoff c' hc' c hc))
  rw [hb3, hbc]

end StoreCharacterization

section ClaimC1

/-- C1: for every call of the dilation write step (`storeLightMapValue`) on a
texel with combined value V, the texel's own slot in the current pass output
buffer receives V with alpha set to 1, and each of its 8 surrounding
neighbour slots receives V exactly when that neighbour's atlas-map item-id
channel (channel index 2) is 0 and either the neighbour is axis-aligned or
its alpha in the current pass's output buffer is still 0; a neighbour whose
item-id channel is non-zero is never overwritten by dilation. -/
theorem claim_C1_storeLightMapValue_dilation
    (atlas buf : ℕ → ℚ) (rgba : Rgba) (w h x y : ℕ)
    (hw : 3 ≤ w) (hh : 3 ≤ h) (hx : x < w) (hy : y < h) :
    (storeLightMapValue atlas w (w * h) (y * w + x) rgba buf ((y * w + x) * 4) = rgba.x ∧
     storeLightMapValue atlas w (w * h) (y * w + x) rgba buf ((y * w + x) * 4 + 1) = rgba.y ∧
     storeLightMapValue atlas w (w * h) (y * w + x) rgba buf ((y * w + x) * 4 + 2) = rgba.z ∧
     storeLightMapValue atlas w (w * h) (y * w + x) rgba buf ((y * w + x) * 4 + 3) = 1) ∧
    ∀ off ∈ offDirX.zip offDirY,
      (atlas (brushSlot w h x y off + 2) = 0 ∧
          ((off.1 = 0 ∨ off.2 = 0) ∨ buf (brushSlot w h x y off + 3) = 0) →
        storeLightMapValue atlas w (w * h) (y * w + x) rgba buf
            (brushSlot w h x y off) = rgba.x ∧
        storeLightMapValue atlas w (w * h) (y * w + x) rgba buf
            (brushSlot w h x y off + 1) = rgba.y ∧
        storeLightMapValue atlas w (w * h) (y * w + x) rgba buf
            (brushSlot w h x y off + 2) = rgba.z ∧
        storeLightMapValue atlas w (w * h) (y * w + x) rgba buf
            (brushSlot w h x y off + 3) = 1) ∧
      (¬(atlas (brushSlot w h x y off + 2) = 0 ∧
          ((off.1 = 0 ∨ off.2 = 0) ∨ buf (brushSlot w h x y off + 3) = 0)) →
        ∀ c < 4,
          storeLightMapValue atlas w (w * h) (y * w + x) rgba buf
              (brushSlot w h x y off + c) = buf (brushSlot w h x y off + c)) := by
  constructor
  · refine ⟨?_, ?_, ?_, ?_⟩
    · simpa using store_at_main atlas w h x y hw hh hx hy rgba buf 0 (by omega)
    · exact store_at_main atlas w h x y hw hh hx hy rgba buf 1 (by omega)
    · exact store_at_main atlas w h x y hw hh hx hy rgba buf 2 (by omega)
    · exact store_at_main atlas w h x y hw hh hx hy rgba buf 3 (by omega)
  · intro off hoff
    constructor
    · intro hcond
      refine ⟨?_, ?_, ?_, ?_⟩
      · have := store_at_neighbor atlas w h x y hw hh hx hy rgba buf off hoff 0 (by omega)
        rw [if_pos hcond] at this
        simpa using this
      · have := store_at_neighbor atlas w h x y hw hh hx hy rgba buf off hoff 1 (by omega)
        rw [if_pos hcond] at this
        exact this
      · have := store_at_neighbor atlas w h x y hw hh hx hy rgba buf off hoff 2 (by omega)
        rw [if_pos hcond] at this
        exact this
      · have := store_at_neighbor atlas w h x y hw hh hx hy rgba buf off hoff 3 (by omega)
        rw [if_pos hcond] at this
        exact this
    · intro hcond c hc
      have := store_at_neighbor atlas w h x y hw hh hx hy rgba buf off hoff c hc
      rwa [if_neg hcond] at this

/-- Witness for C1 at a concrete 3x3 atlas, texel (1,1). -/
theorem claim_C1_witness :
    (3 ≤ 3 ∧ 3 ≤ 3 ∧ 1 < 3 ∧ 1 < 3) ∧
    ((storeLightMapValue (fun _ => 0) 3 (3 * 3) (1 * 3 + 1) ⟨5, 6, 7, 0⟩ (fun _ => 0)
        ((1 * 3 + 1) * 4) = (5 : ℚ) ∧
      storeLightMapValue (fun _ => 0) 3 (3 * 3) (1 * 3 + 1) ⟨5, 6, 7, 0⟩ (fun _ => 0)
        ((1 * 3 + 1) * 4 + 1) = (6 : ℚ) ∧
      storeLightMapValue (fun _ => 0) 3 (3 * 3) (1 * 3 + 1) ⟨5, 6, 7, 0⟩ (fun _ => 0)
        ((1 * 3 + 1) * 4 + 2) = (7 : ℚ) ∧
      storeLightMapValue (fun _ => 0) 3 (3 * 3) (1 * 3 + 1) ⟨5, 6, 7, 0⟩ (fun _ => 0)
        ((1 * 3 + 1) * 4 + 3) = 1) ∧
     ∀ off ∈ offDirX.zip offDirY,
      ((fun _ => (0 : ℚ)) (brushSlot 3 3 1 1 off + 2) = 0 ∧
          ((off.1 = 0 ∨ off.2 = 0) ∨ (fun _ => (0 : ℚ)) (brushSlot 3 3 1 1 off + 3) = 0) →
        storeLightMapValue (fun _ => 0) 3 (3 * 3) (1 * 3 + 1) ⟨5, 6, 7, 0⟩ (fun _ => 0)
            (brushSlot 3 3 1 1 off) = (5 : ℚ) ∧
        storeLightMapValue (fun _ => 0) 3 (3 * 3) (1 * 3 + 1) ⟨5, 6, 7, 0⟩ (fun _ => 0)
            (brushSlot 3 3 1 1 off + 1) = (6 : ℚ) ∧
        storeLightMapValue (fun _ => 0) 3 (3 * 3) (1 * 3 + 1) ⟨5, 6, 7, 0⟩ (fun _ => 0)
            (brushSlot 3 3 1 1 off + 2) = (7 : ℚ) ∧
        storeLightMapValue (fun _ => 0) 3 (3 * 3) (1 * 3 + 1) ⟨5, 6, 7, 0⟩ (fun _ => 0)
            (brushSlot 3 3 1 1 off + 3) = 1) ∧
      (¬((fun _ => (0 : ℚ)) (brushSlot 3 3 1 1 off + 2) = 0 ∧
          ((off.1 = 0 ∨ off.2 = 0) ∨ (fun _ => (0 : ℚ)) (brushSlot 3 3 1 1 off + 3) = 0)) →
        ∀ c < 4,
          storeLightMapValue (fun _ => 0) 3 (3 * 3) (1 * 3 + 1) ⟨5, 6, 7, 0⟩ (fun _ => 0)
              (brushSlot 3 3 1 1 off + c) = (fun _ => (0 : ℚ)) (brushSlot 3 3 1 1 off + c))) :=
  ⟨by norm_num,
    claim_C1_storeLightMapValue_dilation (fun _ => 0) (fun _ => 0) ⟨5, 6, 7, 0⟩ 3 3 1 1
      (by norm_num) (by norm_num) (by norm_num) (by norm_num)⟩

end ClaimC1

section ClaimC2

/-- C2 counterexample: two texels that are BOTH axis-adjacent (from
orthogonal directions) to the same empty texel E do NOT commute: each
writes E unconditionally, so the later writer's value wins.  On a 3x3
all-background atlas, texel A = (0,1) writes value 1 and texel B = (1,0)
writes value 2 into their shared axis-aligned neighbour E = (1,1)
(buffer slot 16); the two processing orders leave different values at E. -/
theorem claim_C2_counterexample :
    brushSlot 3 3 0 1 (1, 0) = 16 ∧
    brushSlot 3 3 1 0 (0, 1) = 16 ∧
    storeLightMapValue (fun _ => 0) 3 9 1 ⟨2, 0, 0, 0⟩
        (storeLightMapValue (fun _ => 0) 3 9 3 ⟨1, 0, 0, 0⟩ (fun _ => 0)) 16 = 2 ∧
    storeLightMapValue (fun _ => 0) 3 9 3 ⟨1, 0, 0, 0⟩
        (storeLightMapValue (fun _ => 0) 3 9 1 ⟨2, 0, 0, 0⟩ (fun _ => 0)) 16 = 1 ∧
    storeLightMapValue (fun _ => 0) 3 9 1 ⟨2, 0, 0, 0⟩
        (storeLightMapValue (fun _ => 0) 3 9 3 ⟨1, 0, 0, 0⟩ (fun _ => 0)) 16 ≠
      storeLightMapValue (fun _ => 0) 3 9 3 ⟨1, 0, 0, 0⟩
        (storeLightMapValue (fun _ => 0) 3 9 1 ⟨2, 0, 0, 0⟩ (fun _ => 0)) 16 := by
  decide

/-- C2 amended: order-independence holds when exactly one of the two
writers is axis-aligned ("strong") with respect to the shared empty texel
E and the other is diagonal: the strong writer's value ends up at E in
both processing orders (it overwrites an earlier diagonal write and
survives a later one).  When both writers are axis-aligned, the later
writer's value wins (see the counterexample). -/
theorem claim_C2_strong_beats_diagonal
    (atlas buf : ℕ → ℚ) (rgbaA rgbaB : Rgba)
    (w h xA yA xB yB : ℕ) (hw : 3 ≤ w) (hh : 3 ≤ h)
    (hxA : xA < w) (hyA : yA < h) (hxB : xB < w) (hyB : yB < h)
    (dA dB : ℤ × ℤ)
    (hdA : dA ∈ offDirX.zip offDirY) (hdB : dB ∈ offDirX.zip offDirY)
    (hstrong : dA.1 = 0 ∨ dA.2 = 0)
    (hdiag : dB.1 ≠ 0 ∧ dB.2 ≠ 0)
    (hsame : brushSlot w h xB yB dB = brushSlot w h xA yA dA)
    (hempty : atlas (brushSlot w h xA yA dA + 2) = 0) :
    ∀ c < 4,
      storeLightMapValue atlas w (w * h) (yB * w + xB) rgbaB
          (storeLightMapValue atlas w (w * h) (yA * w + xA) rgbaA buf)
          (brushSlot w h xA yA dA + c) = rgbaComp { rgbaA with w := 1 } c ∧
      storeLightMapValue atlas w (w * h) (yA * w + xA) rgbaA
          (storeLightMapValue atlas w (w * h) (yB * w + xB) rgbaB buf)
          (brushSlot w h xA yA dA + c) = rgbaComp { rgbaA with w := 1 } c := by
  intro c hc
  have hAcond : atlas (brushSlot w h xA yA dA + 2) = 0 ∧
      ((dA.1 = 0 ∨ dA.2 = 0) ∨ buf (brushSlot w h xA yA dA + 3) = 0) :=
    ⟨hempty, Or.inl hstrong⟩
  constructor
  · -- A first, then B: A's strong write lands, B's diagonal write is blocked
    -- because E's alpha is already 1 in the pass output.
    set bufA := storeLightMapValue atlas w (w * h) (yA * w + xA) rgbaA buf with hbufA
    have halpha : bufA (brushSlot w h xA yA dA + 3) = 1 := by
      rw [hbufA]
      have := store_at_neighbor atlas w h xA yA hw hh hxA hyA rgbaA buf dA hdA 3 (by omega)
      rw [if_pos ⟨hempty, Or.inl hstrong⟩] at this
      exact this
    have hB := store_at_neighbor atlas w h xB yB hw hh hxB hyB rgbaB bufA dB hdB c hc
    rw [hsame] at hB
    rw [if_neg ?_] at hB
    · rw [hB, hbufA]
      have := store_at_neighbor atlas w h xA yA hw hh hxA hyA rgbaA buf dA hdA c hc
      rw [if_pos hAcond] at this
      exact this
    · rintro ⟨-, hor⟩
      rcases hor with hor | hor
      · rcases hor with hor | hor
        · exact hdiag.1 hor
        · exact hdiag.2 hor
      · rw [halpha] at hor
        norm_num at hor
  · -- B first, then A: A's strong write overwrites whatever B left at E.
    set bufB := storeLightMapValue atlas w (w * h) (yB * w + xB) rgbaB buf with hbufB
    have hA := store_at_neighbor atlas w h xA yA hw hh hxA hyA rgbaA bufB dA hdA c hc
    rw [if_pos ⟨hempty, Or.inl hstrong⟩] at hA
    exact hA

/-- Witness for the amended C2: 3x3 all-background atlas, A = (0,1) with
strong direction (1,0), B = (0,0) with diagonal direction (1,1), shared
texel E = (1,1). -/
theorem claim_C2_witness :
    (3 ≤ 3 ∧ 1 < 3 ∧ 0 < 3 ∧
     (1, 0) ∈ offDirX.zip offDirY ∧ (1, 1) ∈ offDirX.zip offDirY ∧
     brushSlot 3 3 0 0 (1, 1) = brushSlot 3 3 0 1 (1, 0) ∧
     (fun _ => (0 : ℚ)) (brushSlot 3 3 0 1 (1, 0) + 2) = 0) ∧
    ∀ c < 4,
      storeLightMapValue (fun _ => 0) 3 (3 * 3) (0 * 3 + 0) ⟨2, 2, 2, 0⟩
          (storeLightMapValue (fun _ => 0) 3 (3 * 3) (1 * 3 + 0) ⟨1, 1, 1, 0⟩ (fun _ => 0))
          (brushSlot 3 3 0 1 (1, 0) + c) = rgbaComp ⟨1, 1, 1, 1⟩ c ∧
      storeLightMapValue (fun _ => 0) 3 (3 * 3) (1 * 3 + 0) ⟨1, 1, 1, 0⟩
          (storeLightMapValue (fun _ => 0) 3 (3 * 3) (0 * 3 + 0) ⟨2, 2, 2, 0⟩ (fun _ => 0))
          (brushSlot 3 3 0 1 (1, 0) + c) = rgbaComp ⟨1, 1, 1, 1⟩ c :=
  ⟨⟨by norm_num, by norm_num, by norm_num, by decide, by decide, by decide, rfl⟩,
    claim_C2_strong_beats_diagonal (fun _ => 0) (fun _ => 0) ⟨1, 1, 1, 0⟩ ⟨2, 2, 2, 0⟩
      3 3 0 1 0 0 (by norm_num) (by norm_num) (by norm_num) (by norm_num) (by norm_num)
      (by norm_num) (1, 0) (1, 1) (by decide) (by decide) (by decide) (by decide)
      (by decide) rfl⟩

end ClaimC2

section ClaimC10

/-- C10: the dilation brush wraps toroidally at the atlas borders: the
neighbour column is `(atlasWidth + texelX + offX) % atlasWidth` and the
neighbour row start wraps modulo the total texel count, so a texel in the
leftmost column propagates into the rightmost column of the same row, a
texel in the rightmost column into the leftmost, a texel in the last row
into row 0, and a texel in row 0 into the last row — whenever the
wrapped-to texel is empty (axis-aligned neighbours write unconditionally
then). -/
theorem claim_C10_toroidal_wrap
    (atlas buf : ℕ → ℚ) (rgba : Rgba) (w h x y : ℕ)
    (hw : 3 ≤ w) (hh : 3 ≤ h) (hx : x < w) (hy : y < h) :
    brushSlot w h 0 y (-1, 0) = (y * w + (w - 1)) * 4 ∧
    brushSlot w h (w - 1) y (1, 0) = (y * w) * 4 ∧
    brushSlot w h x (h - 1) (0, 1) = x * 4 ∧
    brushSlot w h x 0 (0, -1) = ((h - 1) * w + x) * 4 ∧
    (atlas ((y * w + (w - 1)) * 4 + 2) = 0 →
      ∀ c < 4,
        storeLightMapValue atlas w (w * h) (y * w) rgba buf
          ((y * w + (w - 1)) * 4 + c) = rgbaComp { rgba with w := 1 } c) ∧
    (atlas ((y * w) * 4 + 2) = 0 →
      ∀ c < 4,
        storeLightMapValue atlas w (w * h) (y * w + (w - 1)) rgba buf
          ((y * w) * 4 + c) = rgbaComp { rgba with w := 1 } c) ∧
    (atlas (x * 4 + 2) = 0 →
      ∀ c < 4,
        storeLightMapValue atlas w (w * h) ((h - 1) * w + x) rgba buf
          (x * 4 + c) = rgbaComp { rgba with w := 1 } c) ∧
    (atlas (((h - 1) * w + x) * 4 + 2) = 0 →
      ∀ c < 4,
        storeLightMapValue atlas w (w * h) x rgba buf
          (((h - 1) * w + x) * 4 + c) = rgbaComp { rgba with w := 1 } c) := by
  have e1 : brushSlot w h 0 y (-1, 0) = (y * w + (w - 1)) * 4 := by
    show (wrapIdx h y 0 * w + wrapIdx w 0 (-1)) * 4 = (y * w + (w - 1)) * 4
    rw [wrapIdx_zero h y hy, wrapIdx_negOne w 0 (by omega)]
    simp
  have e2 : brushSlot w h (w - 1) y (1, 0) = (y * w) * 4 := by
    show (wrapIdx h y 0 * w + wrapIdx w (w - 1) 1) * 4 = (y * w) * 4
    rw [wrapIdx_zero h y hy, wrapIdx_one w (w - 1) (by omega)]
    simp only [if_pos (by omega : w - 1 + 1 = w)]
    ring
  have e3 : brushSlot w h x (h - 1) (0, 1) = x * 4 := by
    show (wrapIdx h (h - 1) 1 * w + wrapIdx w x 0) * 4 = x * 4
    rw [wrapIdx_zero w x hx, wrapIdx_one h (h - 1) (by omega)]
    simp only [if_pos (by omega : h - 1 + 1 = h)]
    ring
  have e4 : brushSlot w h x 0 (0, -1) = ((h - 1) * w + x) * 4 := by
    show (wrapIdx h 0 (-1) * w + wrapIdx w x 0) * 4 = ((h - 1) * w + x) * 4
    rw [wrapIdx_zero w x hx, wrapIdx_negOne h 0 (by omega)]
    simp
  refine ⟨e1, e2, e3, e4, ?_, ?_, ?_, ?_⟩
  · intro hempty c hc
    have hm := store_at_neighbor atlas w h 0 y hw hh (by omega) hy rgba buf (-1, 0)
      (by decide) c hc
    rw [e1] at hm
    rw [if_pos ⟨hempty, Or.inl (Or.inr rfl)⟩] at hm
    simpa using hm
  · intro hempty c hc
    have hm := store_at_neighbor atlas w h (w - 1) y hw hh (by omega) hy rgba buf (1, 0)
      (by decide) c hc
    rw [e2] at hm
    rw [if_pos ⟨hempty, Or.inl (Or.inr rfl)⟩] at hm
    exact hm
  · intro hempty c hc
    have hm := store_at_neighbor atlas w h x (h - 1) hw hh hx (by omega) rgba buf (0, 1)
      (by decide) c hc
    rw [e3] at hm
    rw [if_pos ⟨hempty, Or.inl (Or.inl rfl)⟩] at hm
    exact hm
  · intro hempty c hc
    have hm := store_at_neighbor atlas w h x 0 hw hh hx (by omega) rgba buf (0, -1)
      (by decide) c hc
    rw [e4] at hm
    rw [if_pos ⟨hempty, Or.inl (Or.inl rfl)⟩] at hm
    simpa using hm

/-- Witness for C10 on a concrete 3x3 atlas at x = y = 1. -/
theorem claim_C10_witness :
    (3 ≤ 3 ∧ 1 < 3) ∧
    (brushSlot 3 3 0 1 (-1, 0) = (1 * 3 + (3 - 1)) * 4 ∧
     brushSlot 3 3 (3 - 1) 1 (1, 0) = (1 * 3) * 4 ∧
     brushSlot 3 3 1 (3 - 1) (0, 1) = 1 * 4 ∧
     brushSlot 3 3 1 0 (0, -1) = ((3 - 1) * 3 + 1) * 4 ∧
     ((fun _ => (0 : ℚ)) ((1 * 3 + (3 - 1)) * 4 + 2) = 0 →
       ∀ c < 4,
         storeLightMapValue (fun _ => 0) 3 (3 * 3) (1 * 3) ⟨9, 9, 9, 0⟩ (fun _ => 0)
           ((1 * 3 + (3 - 1)) * 4 + c) = rgbaComp ⟨9, 9, 9, 1⟩ c) ∧
     ((fun _ => (0 : ℚ)) ((1 * 3) * 4 + 2) = 0 →
       ∀ c < 4,
         storeLightMapValue (fun _ => 0) 3 (3 * 3) (1 * 3 + (3 - 1)) ⟨9, 9, 9, 0⟩ (fun _ => 0)
           ((1 * 3) * 4 + c) = rgbaComp ⟨9, 9, 9, 1⟩ c) ∧
     ((fun _ => (0 : ℚ)) (1 * 4 + 2) = 0 →
       ∀ c < 4,
         storeLightMapValue (fun _ => 0) 3 (3 * 3) ((3 - 1) * 3 + 1) ⟨9, 9, 9, 0⟩ (fun _ => 0)
           (1 * 4 + c) = rgbaComp ⟨9, 9, 9, 1⟩ c) ∧
     ((fun _ => (0 : ℚ)) (((3 - 1) * 3 + 1) * 4 + 2) = 0 →
       ∀ c < 4,
         storeLightMapValue (fun _ => 0) 3 (3 * 3) 1 ⟨9, 9, 9, 0⟩ (fun _ => 0)
           (((3 - 1) * 3 + 1) * 4 + c) = rgbaComp ⟨9, 9, 9, 1⟩ c)) :=
  ⟨by norm_num,
    claim_C10_toroidal_wrap (fun _ => 0) (fun _ => 0) ⟨9, 9, 9, 0⟩ 3 3 1 1
      (by norm_num) (by norm_num) (by norm_num) (by norm_num)⟩

end ClaimC10

/-! ## Atlas auto-sizing (`autoSelectSize`, AutoUV2.tsx) -/

/-- `const MAX_AUTO_SIZE = 512`. -/
def MAX_AUTO_SIZE : ℕ := 512

/-- The candidate sizes tried by the loop
`for (let size = 4; size <= MAX_AUTO_SIZE; size *= 2)`, in order. -/
def autoSizeCandidates : List ℕ := [4, 8, 16, 32, 64, 128, 256, 512]

/-- `autoSelectSize(layoutSize)`: return the first candidate with
`layoutSize < size`; `none` models the thrown sizing error when the loop
runs out. -/
def autoSelectSize (layoutSize : ℕ) : Option ℕ :=
  autoSizeCandidates.find? (fun size => layoutSize < size)

/-- Modelled from the spec's words for comparison: "the smallest
power-of-two ≥ the packer's required extent (tested upward from 4 to a
hard cap)". -/
def specSmallestPow2GE (layoutSize : ℕ) : Option ℕ :=
  autoSizeCandidates.find? (fun size => layoutSize ≤ size)

section ClaimC3

/-- C3 counterexample: for a required extent of exactly 4 texels the code
returns 8, not the smallest power of two ≥ 4 (which is 4): the loop test
is strict (`layoutSize < size`). -/
theorem claim_C3_counterexample :
    autoSelectSize 4 = some 8 ∧ specSmallestPow2GE 4 = some 4 ∧
    autoSelectSize 4 ≠ specSmallestPow2GE 4 := by
  decide

/-- C3 amended: the selected atlas dimension is the smallest power of two
in `[4, 512]` that is STRICTLY greater than the required extent; the
fatal sizing error fires exactly when the extent is ≥ 512 (so an extent
of exactly 512 already throws, even though 512 is itself a candidate).
The returned value is never below 4, above 512, or a non-power-of-two. -/
theorem claim_C3_autoSelectSize_strict (layoutSize : ℕ) :
    (autoSelectSize layoutSize = none ↔ MAX_AUTO_SIZE ≤ layoutSize) ∧
    (∀ s, autoSelectSize layoutSize = some s →
      layoutSize < s ∧ 4 ≤ s ∧ s ≤ MAX_AUTO_SIZE ∧ (∃ k, s = 2 ^ k) ∧
      ∀ c ∈ autoSizeCandidates, layoutSize < c → s ≤ c) := by
  unfold autoSelectSize MAX_AUTO_SIZE autoSizeCandidates
  by_cases h4 : layoutSize < 4
  · simp [List.find?, h4]
    first
      | exact ⟨by omega, 2, by norm_num⟩
      | exact ⟨2, by norm_num⟩
      | omega
  by_cases h8 : layoutSize < 8
  · simp [List.find?, h4, h8]
    first
      | exact ⟨by omega, 3, by norm_num⟩
      | exact ⟨3, by norm_num⟩
      | omega
  by_cases h16 : layoutSize < 16
  · simp [List.find?, h4, h8, h16]
    first
      | exact ⟨by omega, 4, by norm_num⟩
      | exact ⟨4, by norm_num⟩
      | omega
  by_cases h32 : layoutSize < 32
  · simp [List.find?, h4, h8, h16, h32]
    first
      | exact ⟨by omega, 5, by norm_num⟩
      | exact ⟨5, by norm_num⟩
      | omega
  by_cases h64 : layoutSize < 64
  · simp [List.find?, h4, h8, h16, h32, h64]
    first
      | exact ⟨by omega, 6, by norm_num⟩
      | exact ⟨6, by norm_num⟩
      | omega
  by_cases h128 : layoutSize < 128
  · simp [List.find?, h4, h8, h16, h32, h64, h128]
    first
      | exact ⟨by omega, 7, by norm_num⟩
      | exact ⟨7, by norm_num⟩
      | omega
  by_cases h256 : layoutSize < 256
  · simp [List.find?, h4, h8, h16, h32, h64, h128, h256]
    first
      | exact ⟨by omega, 8, by norm_num⟩
      | exact ⟨8, by norm_num⟩
      | omega
  by_cases h512 : layoutSize < 512
  · simp [List.find?, h4, h8, h16, h32, h64, h128, h256, h512]
    first
      | exact ⟨by omega, 9, by norm_num⟩
      | exact ⟨9, by norm_num⟩
      | omega
  · simp [List.find?, h4, h8, h16, h32, h64, h128, h256, h512]
    omega

/-- Witness for the amended C3 at the concrete extent 5. -/
theorem claim_C3_witness :
    autoSelectSize 5 = some 8 ∧
    (5 < 8 ∧ 4 ≤ 8 ∧ 8 ≤ MAX_AUTO_SIZE ∧ (∃ k, 8 = 2 ^ k) ∧
      ∀ c ∈ autoSizeCandidates, 5 < c → 8 ≤ c) := by
  refine ⟨by decide, ?_⟩
  have h := (claim_C3_autoSelectSize_strict 5).2 8 (by decide)
  exact h

end ClaimC3

/-! ## Atlas texel decoding (`getTexelInfo`, IrradianceRenderer.tsx) -/

/-- `Math.round` on exact rationals: round half away from zero is
`Math.round`'s behaviour only for non-negative halves; JS rounds ties
toward positive infinity, i.e. `Math.round(q) = ⌊q + 0.5⌋`. -/
def jsRound (q : ℚ) : ℤ := ⌊q + 1 / 2⌋

/-- One entry of `AtlasMap.items`: the originating mesh and geometry
buffer (modelled as opaque identifiers) plus the face count. -/
structure AtlasMapItem where
  originalMesh : ℕ
  originalBuffer : ℕ
  faceCount : ℕ
deriving DecidableEq

/-- The `AtlasMap` snapshot: dimensions, the rgba-interleaved float data
buffer and the item list. -/
structure AtlasMapModel where
  width : ℕ
  height : ℕ
  data : ℕ → ℚ
  items : List AtlasMapItem

/-- The `ProbeTexel` record produced for a decodable texel. -/
structure ProbeTexel where
  texelIndex : ℕ
  originalMesh : ℕ
  originalBuffer : ℕ
  faceIndex : ℤ
  pU : ℚ
  pV : ℚ
deriving DecidableEq

/-- `getTexelInfo(atlasMap, texelIndex)`: `ok none` models the `null`
return for an empty texel, `error` models the two thrown invariant
violations, `ok (some _)` the decoded `ProbeTexel`. -/
def getTexelInfo (atlasMap : AtlasMapModel) (texelIndex : ℕ) :
    Except String (Option ProbeTexel) :=
  let texelInfoBase := texelIndex * 4
  let texelPosU := atlasMap.data texelInfoBase
  let texelPosV := atlasMap.data (texelInfoBase + 1)
  let texelItemEnc := atlasMap.data (texelInfoBase + 2)
  let texelFaceEnc := atlasMap.data (texelInfoBase + 3)
  if texelItemEnc = 0 then
    Except.ok none
  else
    let texelItemIndex := jsRound (texelItemEnc - 1)
    let texelFaceIndex := jsRound (texelFaceEnc - 1)
    if texelItemIndex < 0 ∨ (atlasMap.items.length : ℤ) ≤ texelItemIndex then
      Except.error "incorrect atlas map item data"
    else
      let atlasItem := atlasMap.items.getD texelItemIndex.toNat ⟨0, 0, 0⟩
      if texelFaceIndex < 0 ∨ (atlasItem.faceCount : ℤ) ≤ texelFaceIndex then
        Except.error "incorrect atlas map face data"
      else
        Except.ok (some
          { texelIndex := texelIndex
            originalMesh := atlasItem.originalMesh
            originalBuffer := atlasItem.originalBuffer
            faceIndex := texelFaceIndex
            pU := texelPosU
            pV := texelPosV })

section ClaimC5

/-- C5: decoding returns `null` exactly when the texel's item-id channel
(offset `i*4+2`) is 0; for a non-zero channel it throws exactly when the
decoded item index `round(enc-1)` is outside `[0, items.length)` or the
decoded face index is outside `[0, item.faceCount)`; otherwise it returns
a `ProbeTexel` carrying that item's mesh/buffer, the decoded face index
and the texel's `(pU, pV)` channels. -/
theorem claim_C5_getTexelInfo_decode (m : AtlasMapModel) (i : ℕ) :
    (getTexelInfo m i = Except.ok none ↔ m.data (i * 4 + 2) = 0) ∧
    ((∃ e, getTexelInfo m i = Except.error e) ↔
      m.data (i * 4 + 2) ≠ 0 ∧
        (jsRound (m.data (i * 4 + 2) - 1) < 0 ∨
         (m.items.length : ℤ) ≤ jsRound (m.data (i * 4 + 2) - 1) ∨
         jsRound (m.data (i * 4 + 3) - 1) < 0 ∨
         ((m.items.getD (jsRound (m.data (i * 4 + 2) - 1)).toNat ⟨0, 0, 0⟩).faceCount : ℤ) ≤
           jsRound (m.data (i * 4 + 3) - 1))) ∧
    (m.data (i * 4 + 2) ≠ 0 →
      0 ≤ jsRound (m.data (i * 4 + 2) - 1) →
      jsRound (m.data (i * 4 + 2) - 1) < (m.items.length : ℤ) →
      0 ≤ jsRound (m.data (i * 4 + 3) - 1) →
      jsRound (m.data (i * 4 + 3) - 1) <
        ((m.items.getD (jsRound (m.data (i * 4 + 2) - 1)).toNat ⟨0, 0, 0⟩).faceCount : ℤ) →
      getTexelInfo m i = Except.ok (some
        { texelIndex := i
          originalMesh :=
            (m.items.getD (jsRound (m.data (i * 4 + 2) - 1)).toNat ⟨0, 0, 0⟩).originalMesh
          originalBuffer :=
            (m.items.getD (jsRound (m.data (i * 4 + 2) - 1)).toNat ⟨0, 0, 0⟩).originalBuffer
          faceIndex := jsRound (m.data (i * 4 + 3) - 1)
          pU := m.data (i * 4)
          pV := m.data (i * 4 + 1) })) := by
  unfold getTexelInfo
  by_cases hz : m.data (i * 4 + 2) = 0
  · simp [hz]
  · by_cases hitem : jsRound (m.data (i * 4 + 2) - 1) < 0 ∨
        (m.items.length : ℤ) ≤ jsRound (m.data (i * 4 + 2) - 1)
    · simp only [hz, if_neg hz, if_pos hitem]
      refine ⟨by simp, ?_, ?_⟩
      · constructor
        · intro _
          exact ⟨hz, by tauto⟩
        · intro _
          exact ⟨"incorrect atlas map item data", rfl⟩
      · intro _ hge hlt _ _
        rcases hitem with hitem | hitem <;> omega
    · push_neg at hitem
      by_cases hface : jsRound (m.data (i * 4 + 3) - 1) < 0 ∨
          ((m.items.getD (jsRound (m.data (i * 4 + 2) - 1)).toNat ⟨0, 0, 0⟩).faceCount : ℤ) ≤
            jsRound (m.data (i * 4 + 3) - 1)
      · simp only [hz, if_neg hz, if_neg (by push_neg; omega :
          ¬(jsRound (m.data (i * 4 + 2) - 1) < 0 ∨
            (m.items.length : ℤ) ≤ jsRound (m.data (i * 4 + 2) - 1))), if_pos hface]
        refine ⟨by simp, ?_, ?_⟩
        · constructor
          · intro _
            exact ⟨hz, by tauto⟩
          · intro _
            exact ⟨"incorrect atlas map face data", rfl⟩
        · intro _ _ _ hge hlt
          rcases hface with hface | hface <;> omega
      · simp only [hz, if_neg hz, if_neg (by push_neg; omega :
          ¬(jsRound (m.data (i * 4 + 2) - 1) < 0 ∨
            (m.items.length : ℤ) ≤ jsRound (m.data (i * 4 + 2) - 1))), if_neg hface]
        push_neg at hface
        refine ⟨by simp, ?_, ?_⟩
        · constructor
          · rintro ⟨e, he⟩
            exact absurd he (by simp)
          · rintro ⟨-, hor⟩
            rcases hor with hor | hor | hor | hor <;> omega
        · intro _ _ _ _ _
          rfl

/-- Witness for C5: a one-item atlas map whose texel 0 decodes to item 1,
face 1. -/
theorem claim_C5_witness :
    (fun j : ℕ => if j = 2 then (1 : ℚ) else if j = 3 then 1 else (1 : ℚ) / 2) (0 * 4 + 2) ≠ 0 ∧
    getTexelInfo
        { width := 1, height := 1,
          data := fun j => if j = 2 then (1 : ℚ) else if j = 3 then 1 else (1 : ℚ) / 2,
          items := [⟨7, 8, 1⟩] } 0 =
      Except.ok (some
        { texelIndex := 0, originalMesh := 7, originalBuffer := 8,
          faceIndex := 0, pU := 1 / 2, pV := 1 / 2 }) := by
  constructor
  · norm_num
  · have h := (claim_C5_getTexelInfo_decode
      { width := 1, height := 1,
        data := fun j => if j = 2 then (1 : ℚ) else if j = 3 then 1 else (1 : ℚ) / 2,
        items := [⟨7, 8, 1⟩] } 0).2.2
    have hres := h (by norm_num) (by norm_num [jsRound]) (by norm_num [jsRound])
      (by norm_num [jsRound]) (by norm_num [jsRound])
    have hfl : ⌊(2⁻¹ : ℚ)⌋ = (0 : ℤ) := by norm_num
    simpa [jsRound, hfl] using hres

end ClaimC5

/-! ## Layout box dimensions and UV2 write-back (`computeAutoUV2Layout`,
AutoUV2.tsx)

The per-box arithmetic of steps 4 and 6: the bounding extent of the
projected local coordinates (`tmpMinLocal` / `tmpMaxLocal` fold), the
`ceil(realWidth * texelsPerUnit) + 2` texel box, the 0..1 normalisation
of the vertex coordinates, and the final
`(ix + posLocal * iw) / finalWidth` atlas UV. -/

/-- `tmpMinLocal` folded over a box's projected vertex coordinates
(seeded from the first coordinate; the source seeds with `+∞`, which is
equivalent for a non-empty list). -/
def listMin : List ℚ → ℚ
  | [] => 0
  | a :: l => l.foldl min a

/-- `tmpMaxLocal` folded over a box's projected vertex coordinates. -/
def listMax : List ℚ → ℚ
  | [] => 0
  | a :: l => l.foldl max a

/-- `const boxWidthInTexels = Math.ceil(realWidth * texelsPerUnit)`. -/
def boxWidthInTexels (texelsPerUnit : ℚ) (locals : List ℚ) : ℤ :=
  ⌈(listMax locals - listMin locals) * texelsPerUnit⌉

/-- `layoutBox.w = boxWidthInTexels + 2  // plus margins`. -/
def layoutBoxW (texelsPerUnit : ℚ) (locals : List ℚ) : ℤ :=
  boxWidthInTexels texelsPerUnit locals + 2

/-- `posLocalX[i] = (posLocalX[i] - tmpMinLocal.x) / realWidth`. -/
def normalizeLocal (locals : List ℚ) (p : ℚ) : ℚ :=
  (p - listMin locals) / (listMax locals - listMin locals)

/-- `uv2Attr.setXY(..., (ix + posLocalX[i] * iw) / finalWidth, ...)` with
`ix = x + 1` and `iw = w - 2`. -/
def uv2Coord (x w : ℤ) (finalWidth localX : ℚ) : ℚ :=
  (((x + 1 : ℤ) : ℚ) + localX * ((w - 2 : ℤ) : ℚ)) / finalWidth

section MinMaxLemmas

theorem foldl_min_le_acc (l : List ℚ) (acc : ℚ) : l.foldl min acc ≤ acc := by
  induction l generalizing acc with
  | nil => exact le_refl acc
  | cons a l ih =>
    calc (a :: l).foldl min acc = l.foldl min (min acc a) := rfl
    _ ≤ min acc a := ih (min acc a)
    _ ≤ acc := min_le_left acc a

theorem foldl_min_le_mem (l : List ℚ) (acc p : ℚ) (hp : p ∈ l) :
    l.foldl min acc ≤ p := by
  induction l generalizing acc with
  | nil => exact absurd hp (List.not_mem_nil p)
  | cons a l ih =>
    rcases List.mem_cons.mp hp with rfl | hp'
    · calc (p :: l).foldl min acc = l.foldl min (min acc p) := rfl
      _ ≤ min acc p := foldl_min_le_acc l (min acc p)
      _ ≤ p := min_le_right acc p
    · exact ih (min acc a) hp'

theorem acc_le_foldl_max (l : List ℚ) (acc : ℚ) : acc ≤ l.foldl max acc := by
  induction l generalizing acc with
  | nil => exact le_refl acc
  | cons a l ih =>
    calc acc ≤ max acc a := le_max_left acc a
    _ ≤ l.foldl max (max acc a) := ih (max acc a)
    _ = (a :: l).foldl max acc := rfl

theorem mem_le_foldl_max (l : List ℚ) (acc p : ℚ) (hp : p ∈ l) :
    p ≤ l.foldl max acc := by
  induction l generalizing acc with
  | nil => exact absurd hp (List.not_mem_nil p)
  | cons a l ih =>
    rcases List.mem_cons.mp hp with rfl | hp'
    · calc p ≤ max acc p := le_max_right acc p
      _ ≤ l.foldl max (max acc p) := acc_le_foldl_max l (max acc p)
      _ = (p :: l).foldl max acc := rfl
    · exact ih (max acc a) hp'

theorem listMin_le (l : List ℚ) (p : ℚ) (hp : p ∈ l) : listMin l ≤ p := by
  cases l with
  | nil => exact absurd hp (List.not_mem_nil p)
  | cons a t =>
    rcases List.mem_cons.mp hp with rfl | hp'
    · exact foldl_min_le_acc t p
    · exact foldl_min_le_mem t a p hp'

theorem le_listMax (l : List ℚ) (p : ℚ) (hp : p ∈ l) : p ≤ listMax l := by
  cases l with
  | nil => exact absurd hp (List.not_mem_nil p)
  | cons a t =>
    rcases List.mem_cons.mp hp with rfl | hp'
    · exact acc_le_foldl_max t p
    · exact mem_le_foldl_max t a p hp'

end MinMaxLemmas

section ClaimC6

/-- C6: every layout box's packed texel width is
`ceil(localWidth * texelsPerUnit) + 2` (and likewise for height), the
written-back normalised UV2 of every vertex of the box equals
`((x+1) + localX*(w-2)) / atlasWidth` with `localX ∈ [0,1]` the vertex's
position within the box's projected bounding extent, and every such UV
lies inside the box's inner, margin-excluded rectangle
(`[x+1, x+1+(w-2)]` in texel units).  (One axis shown; the V axis is the
same arithmetic on the other coordinate.) -/
theorem claim_C6_uv2_writeback (tpu W : ℚ) (locals : List ℚ) (p : ℚ) (x : ℤ)
    (hp : p ∈ locals) (htpu : 0 < tpu) (hW : 0 < W)
    (hspan : listMin locals < listMax locals) :
    layoutBoxW tpu locals = ⌈(listMax locals - listMin locals) * tpu⌉ + 2 ∧
    0 ≤ normalizeLocal locals p ∧ normalizeLocal locals p ≤ 1 ∧
    uv2Coord x (layoutBoxW tpu locals) W (normalizeLocal locals p) =
      (((x + 1 : ℤ) : ℚ) +
        normalizeLocal locals p * ((layoutBoxW tpu locals - 2 : ℤ) : ℚ)) / W ∧
    ((x + 1 : ℤ) : ℚ) / W ≤ uv2Coord x (layoutBoxW tpu locals) W (normalizeLocal locals p) ∧
    uv2Coord x (layoutBoxW tpu locals) W (normalizeLocal locals p) ≤
      (((x + 1 : ℤ) : ℚ) + ((layoutBoxW tpu locals - 2 : ℤ) : ℚ)) / W := by
  have hmin : listMin locals ≤ p := listMin_le locals p hp
  have hmax : p ≤ listMax locals := le_listMax locals p hp
  have hspan' : (0 : ℚ) < listMax locals - listMin locals := by linarith
  have hnorm0 : 0 ≤ normalizeLocal locals p := by
    unfold normalizeLocal
    exact div_nonneg (by linarith) (le_of_lt hspan')
  have hnorm1 : normalizeLocal locals p ≤ 1 := by
    unfold normalizeLocal
    rw [div_le_one hspan']
    linarith
  have hiw : (0 : ℚ) ≤ ((layoutBoxW tpu locals - 2 : ℤ) : ℚ) := by
    have hceil : (0 : ℤ) ≤ ⌈(listMax locals - listMin locals) * tpu⌉ :=
      le_of_lt (Int.ceil_pos.mpr (mul_pos hspan' htpu))
    have : layoutBoxW tpu locals - 2 = ⌈(listMax locals - listMin locals) * tpu⌉ := by
      unfold layoutBoxW boxWidthInTexels
      ring
    rw [this]
    exact_mod_cast hceil
  refine ⟨rfl, hnorm0, hnorm1, rfl, ?_, ?_⟩
  · unfold uv2Coord
    rw [div_le_div_iff_of_pos_right hW]
    nlinarith [mul_nonneg hnorm0 hiw]
  · unfold uv2Coord
    rw [div_le_div_iff_of_pos_right hW]
    nlinarith [mul_le_of_le_one_left hiw hnorm1]

/-- Witness for C6: box locals `{0, 1/2}`, vertex `1/2`, density 2,
placed at `x = 0` in an atlas of width 8: the box is 3 texels wide and
the vertex UV is `(0+1 + 1*(3-2))/8 = 1/4`. -/
theorem claim_C6_witness :
    ((1 : ℚ) / 2 ∈ [(0 : ℚ), 1 / 2] ∧ (0 : ℚ) < 2 ∧ (0 : ℚ) < 8 ∧
      listMin [(0 : ℚ), 1 / 2] < listMax [(0 : ℚ), 1 / 2]) ∧
    (layoutBoxW 2 [(0 : ℚ), 1 / 2] =
        ⌈(listMax [(0 : ℚ), 1 / 2] - listMin [(0 : ℚ), 1 / 2]) * 2⌉ + 2 ∧
      0 ≤ normalizeLocal [(0 : ℚ), 1 / 2] (1 / 2) ∧
      normalizeLocal [(0 : ℚ), 1 / 2] (1 / 2) ≤ 1 ∧
      uv2Coord 0 (layoutBoxW 2 [(0 : ℚ), 1 / 2]) 8 (normalizeLocal [(0 : ℚ), 1 / 2] (1 / 2)) =
        (((0 + 1 : ℤ) : ℚ) +
          normalizeLocal [(0 : ℚ), 1 / 2] (1 / 2) *
            ((layoutBoxW 2 [(0 : ℚ), 1 / 2] - 2 : ℤ) : ℚ)) / 8 ∧
      ((0 + 1 : ℤ) : ℚ) / 8 ≤
        uv2Coord 0 (layoutBoxW 2 [(0 : ℚ), 1 / 2]) 8 (normalizeLocal [(0 : ℚ), 1 / 2] (1 / 2)) ∧
      uv2Coord 0 (layoutBoxW 2 [(0 : ℚ), 1 / 2]) 8 (normalizeLocal [(0 : ℚ), 1 / 2] (1 / 2)) ≤
        (((0 + 1 : ℤ) : ℚ) + ((layoutBoxW 2 [(0 : ℚ), 1 / 2] - 2 : ℤ) : ℚ)) / 8) :=
  ⟨⟨by norm_num, by norm_num, by norm_num, by norm_num [listMin, listMax]⟩,
    claim_C6_uv2_writeback 2 8 [(0 : ℚ), 1 / 2] (1 / 2) 0
      (by norm_num) (by norm_num) (by norm_num) (by norm_num [listMin, listMax])⟩

end ClaimC6

/-! ## Per-pixel solid-angle weight table (`probePixelAreaLookup`,
IrradianceLightProbe.tsx) -/

/-- `Math.hypot(a, b)` in exact real arithmetic. -/
noncomputable def jsHypot (a b : ℝ) : ℝ := Real.sqrt (a ^ 2 + b ^ 2)

/-- Offset from view centre for pixel coordinate `p` of a probe of size
`S`: `p / probeTargetSize - 0.5 + probePixelBias` with
`probePixelBias = 0.5 / probeTargetSize`. -/
noncomputable def probePixelDelta (S p : ℕ) : ℝ :=
  (p : ℝ) / (S : ℝ) - 1 / 2 + 1 / (2 * (S : ℝ))

/-- The loop body: `span = hypot(dx*2, dy*2); hypo = hypot(span, 1);
area = 1 / hypo`. -/
noncomputable def probePixelArea (S px py : ℕ) : ℝ :=
  1 / jsHypot (jsHypot (probePixelDelta S px * 2) (probePixelDelta S py * 2)) 1

/-- The nested fill loop `for (py ...) for (px ...)
lookup[py * probeTargetSize + px] = area` over a fresh array, modelled as
repeated pointwise updates. -/
noncomputable def probePixelAreaLookup (S : ℕ) : ℕ → ℝ :=
  (List.range S).foldl
    (fun lookup py =>
      (List.range S).foldl
        (fun lookup2 px =>
          Function.update lookup2 (py * S + px) (probePixelArea S px py))
        lookup)
    (fun _ => 0)

section LookupFillLemmas

/-- Row `r`'s inner loop never touches a cell below its own row range. -/
theorem rowFill_preserve (S r n : ℕ) (f : ℕ → ℝ) (k : ℕ) (hk : k < r * S) :
    (List.range n).foldl
        (fun g px => Function.update g (r * S + px) (probePixelArea S px r)) f k =
      f k := by
  induction n generalizing f with
  | zero => rfl
  | succ n ih =>
    rw [List.range_succ, List.foldl_append, List.foldl_cons, List.foldl_nil]
    rw [Function.update_noteq (by omega)]
    exact ih f

/-- Row `r`'s inner loop writes each of its cells exactly once. -/
theorem rowFill_apply (S r n : ℕ) (f : ℕ → ℝ) (px : ℕ) (hpx : px < n) (hn : n ≤ S) :
    (List.range n).foldl
        (fun g px' => Function.update g (r * S + px') (probePixelArea S px' r)) f
        (r * S + px) =
      probePixelArea S px r := by
  induction n generalizing f with
  | zero => omega
  | succ n ih =>
    rw [List.range_succ, List.foldl_append, List.foldl_cons, List.foldl_nil]
    rcases Nat.lt_or_ge px n with hlt | hge
    · rw [Function.update_noteq (by omega)]
      exact ih f hlt (by omega)
    · have hpn : px = n := by omega
      subst hpn
      rw [Function.update_same]

theorem probePixelAreaLookup_eval (S px py : ℕ) (hpx : px < S) (hpy : py < S) :
    probePixelAreaLookup S (py * S + px) = probePixelArea S px py := by
  unfold probePixelAreaLookup
  suffices hgen : ∀ n : ℕ, py < n → n ≤ S → ∀ f : ℕ → ℝ,
      (List.range n).foldl
          (fun lookup py' =>
            (List.range S).foldl
              (fun lookup2 px' =>
                Function.update lookup2 (py' * S + px') (probePixelArea S px' py'))
              lookup)
          f (py * S + px) =
        probePixelArea S px py by
    exact hgen S hpy (le_refl S) (fun _ => 0)
  intro n
  induction n with
  | zero => omega
  | succ n ih =>
    intro hpyn hnS f
    rw [List.range_succ, List.foldl_append, List.foldl_cons, List.foldl_nil]
    rcases Nat.lt_or_ge py n with hlt | hge
    · rw [rowFill_preserve S n S _ _ (by
        have h1 : py * S + px < py * S + S := by omega
        have h2 : (py + 1) * S ≤ n * S := Nat.mul_le_mul_right S (by omega)
        have h3 : (py + 1) * S = py * S + S := by ring
        omega)]
      exact ih hlt (by omega) f
    · have hpn : py = n := by omega
      subst hpn
      exact rowFill_apply S py S _ px hpx (le_refl S)

end LookupFillLemmas

section ClaimC7

theorem probePixelDelta_reflect (S p : ℕ) (hS : 0 < S) (hp : p < S) :
    probePixelDelta S (S - 1 - p) = -probePixelDelta S p := by
  unfold probePixelDelta
  have hcast : ((S - 1 - p : ℕ) : ℝ) = (S : ℝ) - 1 - (p : ℝ) := by
    have h1 : (S - 1 - p) + (1 + p) = S := by omega
    have h2 : (((S - 1 - p) + (1 + p) : ℕ) : ℝ) = ((S : ℕ) : ℝ) := by rw [h1]
    push_cast at h2
    linarith
  have hS' : (S : ℝ) ≠ 0 := by positivity
  rw [hcast]
  field_simp
  ring

theorem jsHypot_neg_left (a b : ℝ) : jsHypot (-a) b = jsHypot a b := by
  unfold jsHypot
  rw [neg_pow]
  norm_num

theorem jsHypot_nonneg (a b : ℝ) : 0 ≤ jsHypot a b := Real.sqrt_nonneg _

theorem jsHypot_outer_pos (a : ℝ) : 0 < jsHypot a 1 := by
  unfold jsHypot
  have h1 : (1 : ℝ) ≤ a ^ 2 + 1 ^ 2 := by nlinarith [sq_nonneg a]
  have := Real.sqrt_le_sqrt h1
  rw [Real.sqrt_one] at this
  linarith

theorem jsHypot_mono_left (a a' b : ℝ) (ha : |a| ≤ |a'|) :
    jsHypot a b ≤ jsHypot a' b := by
  unfold jsHypot
  apply Real.sqrt_le_sqrt
  have := sq_le_sq' (by linarith [abs_nonneg a, neg_abs_le a]) (le_abs_self a)
  nlinarith [sq_abs a, sq_abs a', abs_nonneg a, abs_nonneg a', mul_self_le_mul_self (abs_nonneg a) ha]

theorem jsHypot_mono_right (a b b' : ℝ) (hb : |b| ≤ |b'|) :
    jsHypot a b ≤ jsHypot a b' := by
  unfold jsHypot
  apply Real.sqrt_le_sqrt
  nlinarith [sq_abs b, sq_abs b', abs_nonneg b, abs_nonneg b', mul_self_le_mul_self (abs_nonneg b) hb]

/-- C7: the precomputed weight table assigns pixel `(px, py)` the weight
`1 / hypot(hypot(dx*2, dy*2), 1)` with `dx = px/S - 0.5 + 0.5/S` (and
likewise `dy`); the table is symmetric under 180° rotation
(`weight(px, py) = weight(S-1-px, S-1-py)`), and the weight decreases
monotonically as the pixel offsets move from the view centre toward the
corners (|dx|, |dy| both growing). -/
theorem claim_C7_probe_weight_table (S px py : ℕ) (hpx : px < S) (hpy : py < S) :
    probePixelAreaLookup S (py * S + px) =
      1 / jsHypot (jsHypot (probePixelDelta S px * 2) (probePixelDelta S py * 2)) 1 ∧
    probePixelAreaLookup S (py * S + px) =
      probePixelAreaLookup S ((S - 1 - py) * S + (S - 1 - px)) ∧
    (∀ px' py' : ℕ, px' < S → py' < S →
      |probePixelDelta S px| ≤ |probePixelDelta S px'| →
      |probePixelDelta S py| ≤ |probePixelDelta S py'| →
      probePixelAreaLookup S (py' * S + px') ≤ probePixelAreaLookup S (py * S + px)) := by
  have hS : 0 < S := by omega
  refine ⟨probePixelAreaLookup_eval S px py hpx hpy, ?_, ?_⟩
  · rw [probePixelAreaLookup_eval S px py hpx hpy,
      probePixelAreaLookup_eval S (S - 1 - px) (S - 1 - py) (by omega) (by omega)]
    unfold probePixelArea
    rw [probePixelDelta_reflect S px hS hpx, probePixelDelta_reflect S py hS hpy]
    rw [show -probePixelDelta S px * 2 = -(probePixelDelta S px * 2) by ring,
      show -probePixelDelta S py * 2 = -(probePixelDelta S py * 2) by ring]
    rw [jsHypot_neg_left]
    unfold jsHypot
    rw [neg_pow]
    norm_num
  · intro px' py' hpx' hpy' hdx hdy
    rw [probePixelAreaLookup_eval S px py hpx hpy,
      probePixelAreaLookup_eval S px' py' hpx' hpy']
    unfold probePixelArea
    have habs2 : ∀ a a' : ℝ, |a| ≤ |a'| → |a * 2| ≤ |a' * 2| := by
      intro a a' haa
      rw [abs_mul, abs_mul]
      have h2 : |(2 : ℝ)| = 2 := by norm_num
      rw [h2]
      linarith
    have hinner : jsHypot (probePixelDelta S px * 2) (probePixelDelta S py * 2) ≤
        jsHypot (probePixelDelta S px' * 2) (probePixelDelta S py' * 2) := by
      calc jsHypot (probePixelDelta S px * 2) (probePixelDelta S py * 2)
          ≤ jsHypot (probePixelDelta S px' * 2) (probePixelDelta S py * 2) :=
            jsHypot_mono_left _ _ _ (habs2 _ _ hdx)
        _ ≤ jsHypot (probePixelDelta S px' * 2) (probePixelDelta S py' * 2) :=
            jsHypot_mono_right _ _ _ (habs2 _ _ hdy)
    have houter : jsHypot (jsHypot (probePixelDelta S px * 2) (probePixelDelta S py * 2)) 1 ≤
        jsHypot (jsHypot (probePixelDelta S px' * 2) (probePixelDelta S py' * 2)) 1 := by
      apply jsHypot_mono_left
      rw [abs_of_nonneg (jsHypot_nonneg _ _), abs_of_nonneg (jsHypot_nonneg _ _)]
      exact hinner
    exact one_div_le_one_div_of_le (jsHypot_outer_pos _) houter

/-- Witness for C7: probe size 2, pixel (0, 0) against (1, 1). -/
theorem claim_C7_witness :
    (0 < 2 ∧ 1 < 2) ∧
    (probePixelAreaLookup 2 (0 * 2 + 0) =
        1 / jsHypot (jsHypot (probePixelDelta 2 0 * 2) (probePixelDelta 2 0 * 2)) 1 ∧
      probePixelAreaLookup 2 (0 * 2 + 0) =
        probePixelAreaLookup 2 ((2 - 1 - 0) * 2 + (2 - 1 - 0)) ∧
      (∀ px' py' : ℕ, px' < 2 → py' < 2 →
        |probePixelDelta 2 0| ≤ |probePixelDelta 2 px'| →
        |probePixelDelta 2 0| ≤ |probePixelDelta 2 py'| →
        probePixelAreaLookup 2 (py' * 2 + px') ≤ probePixelAreaLookup 2 (0 * 2 + 0))) :=
  ⟨by norm_num, claim_C7_probe_weight_table 2 0 0 (by norm_num) (by norm_num)⟩

end ClaimC7

/-! ## Bake orchestration (`runBakingPasses`, IrradianceRenderer.tsx)

The GPU probe render is abstracted as a sampling oracle
`sample : pass → current irradiance → texel → rgba` (the probe scene's
staged materials read the workbench irradiance texture, so the rgba a
texel receives may depend on the irradiance buffer committed so far).
Per pass, `getTexels`/`renderLightProbeBatch` walk texel indices
`0 .. totalTexelCount-1` in order and invoke `storeLightMapValue`
exactly for the texels whose atlas item-id channel is non-zero. -/

/-- `const MAX_PASSES = 2`. -/
def MAX_PASSES : ℕ := 2

/-- The texels of one pass's scan that actually get stored: the non-empty
ones (item-id channel non-zero), in scan order. -/
def passTexels (atlasData : ℕ → ℚ) (totalTexelCount : ℕ) : List ℕ :=
  (List.range totalTexelCount).filter (fun t => atlasData (t * 4 + 2) ≠ 0)

/-- One bake pass: start from a freshly allocated all-zero output buffer
(`createTemporaryLightMapTexture`), then `storeLightMapValue` each
scanned non-empty texel with its sampled rgba. -/
def runBakingPass (atlasData : ℕ → ℚ) (atlasWidth atlasHeight : ℕ)
    (sample : ℕ → Rgba) : ℕ → ℚ :=
  (passTexels atlasData (atlasWidth * atlasHeight)).foldl
    (fun passOutputData texelIndex =>
      storeLightMapValue atlasData atlasWidth (atlasWidth * atlasHeight) texelIndex
        (sample texelIndex) passOutputData)
    (fun _ => 0)

/-- The persistent workbench output state: the irradiance data buffer and
how many times the irradiance texture was marked dirty
(`irradiance.needsUpdate = true`). -/
structure BakeState where
  irradianceData : ℕ → ℚ
  dirtyCount : ℕ

/-- `runBakingPasses`: `for (passCount = 0; passCount < MAX_PASSES; ...)`,
each pass allocating a fresh zero output buffer, scanning all texels, then
committing the whole pass output into the workbench irradiance buffer
(`irradianceData.set(passOutputData)`) and marking the texture dirty. -/
def runBakingPasses (atlasData : ℕ → ℚ) (atlasWidth atlasHeight : ℕ)
    (sample : ℕ → (ℕ → ℚ) → ℕ → Rgba) (st : BakeState) : BakeState :=
  (List.range MAX_PASSES).foldl
    (fun acc passCount =>
      let passOutputData :=
        runBakingPass atlasData atlasWidth atlasHeight (sample passCount acc.irradianceData)
      { irradianceData := passOutputData, dirtyCount := acc.dirtyCount + 1 })
    st

section ClaimC8

/-- C8: the orchestrator performs exactly 2 sequential passes
(`MAX_PASSES = 2`); each pass's dilation writes fold over a freshly
allocated all-zero output buffer; each pass ends by committing its entire
output buffer wholesale into the workbench's persistent irradiance buffer
and marking the texture dirty (2 dirty marks total), so the second pass's
sampling sees exactly the first pass's fully committed output. -/
theorem claim_C8_two_pass_orchestration (atlasData : ℕ → ℚ)
    (atlasWidth atlasHeight : ℕ) (sample : ℕ → (ℕ → ℚ) → ℕ → Rgba) (st : BakeState) :
    MAX_PASSES = 2 ∧
    runBakingPasses atlasData atlasWidth atlasHeight sample st =
      { irradianceData :=
          runBakingPass atlasData atlasWidth atlasHeight
            (sample 1 (runBakingPass atlasData atlasWidth atlasHeight
              (sample 0 st.irradianceData))),
        dirtyCount := st.dirtyCount + 1 + 1 } ∧
    runBakingPass atlasData atlasWidth atlasHeight (sample 0 st.irradianceData) =
      (passTexels atlasData (atlasWidth * atlasHeight)).foldl
        (fun passOutputData texelIndex =>
          storeLightMapValue atlasData atlasWidth (atlasWidth * atlasHeight) texelIndex
            (sample 0 st.irradianceData texelIndex) passOutputData)
        (fun _ => 0) := by
  refine ⟨rfl, ?_, rfl⟩
  unfold runBakingPasses MAX_PASSES
  rfl

end ClaimC8

/-! ## Scene staging (`withLightScene`, lightScene.ts over
`traverseSceneItems`, workbench.ts)

Objects are identified by numbers; visibility, material slots and the
`userData` material stash are state maps keyed by object id.  Materials
are likewise identified by numbers with a property map (`matProps`):
`LMat` keeps only the fields the staged claims read — the supported-class
flag and the `aoMap` / `lightMap` texture references (texture references
are also numbers; the workbench irradiance texture is one of them).
Staging materials are allocated fresh ids from a counter.  The GPU/async
task wrapped by `withLightScene` does not touch materials or visibility,
so it is abstracted to its outcome `taskResult`. -/

/-- The fields of a supported material that the staging logic reads. -/
structure LMat where
  supported : Bool
  aoMap : Option ℕ
  lightMap : Option ℕ
deriving DecidableEq

/-- `mesh.material`: a single (possibly null) material reference or an
array of them, as distinguished by `Array.isArray(mesh.material)`. -/
inductive MaterialSlot where
  | single (m : Option ℕ)
  | array (ms : List (Option ℕ))
deriving DecidableEq

/-- Scene object classification used by the staging loop. -/
inductive ObjKind where
  | light
  | mesh
  | other
deriving DecidableEq

/-- A scene-graph node: id, kind, the `LIGHTMAP_IGNORE_FLAG` /
`LIGHTMAP_READONLY_FLAG` userData flags, and children. -/
inductive SceneNode where
  | node (id : ℕ) (kind : ObjKind) (ignoreFlag : Bool) (readOnlyFlag : Bool)
      (children : List SceneNode)

/-- The mutable state `withLightScene` works on. -/
structure SceneState where
  visible : ℕ → Bool
  material : ℕ → MaterialSlot
  matProps : ℕ → LMat
  stash : ℕ → Option MaterialSlot
  sceneLights : ℕ
  nextMatId : ℕ

/-- An event of the `traverseSceneItems` generator: either the
`onIgnored` callback or a yielded object. -/
inductive TEvent where
  | ignored (id : ℕ)
  | yielded (id : ℕ) (kind : ObjKind)
deriving DecidableEq

def eventId : TEvent → ℕ
  | .ignored i => i
  | .yielded i _ => i

mutual

/-- `traverseSceneItems` (workbench.ts): depth-first over an explicit
stack; an object that is invisible, has the ignore flag, or (when
`ignoreReadOnly`) the read-only flag is reported to `onIgnored` and its
subtree skipped; otherwise it is yielded and its children pushed (the
stack pops them last-child-first). -/
def traverseNode (vis : ℕ → Bool) (ignoreReadOnly : Bool) : SceneNode → List TEvent
  | .node i kind ignFlag roFlag children =>
    if vis i = false ∨ ignFlag = true ∨ (ignoreReadOnly = true ∧ roFlag = true) then
      [.ignored i]
    else
      .yielded i kind :: traverseChildrenRev vis ignoreReadOnly children

/-- Children as popped off the traversal stack: last child first. -/
def traverseChildrenRev (vis : ℕ → Bool) (ignoreReadOnly : Bool) :
    List SceneNode → List TEvent
  | [] => []
  | c :: cs =>
    traverseChildrenRev vis ignoreReadOnly cs ++ traverseNode vis ignoreReadOnly c
end

/-- `materialList`: a single material wrapped into a one-element list, or
the array itself. -/
def slotMaterials : MaterialSlot → List (Option ℕ)
  | .single m => [m]
  | .array ms => ms

/-- `Array.isArray(mesh.material) ? stagingMaterialList :
stagingMaterialList[0]`. -/
def rebuildSlot : MaterialSlot → List (Option ℕ) → MaterialSlot
  | .single _, rs => .single (rs.headD none)
  | .array _, rs => .array rs

/-- The `basic safety check`: a truthy `aoMap` (AO mode) or `lightMap`
(lightmap mode) that is not the workbench irradiance texture. -/
def mapConflict (aoMode : Bool) (irr : ℕ) (mat : LMat) : Bool :=
  if aoMode then
    match mat.aoMap with
    | some t => if t = irr then false else true
    | none => false
  else
    match mat.lightMap with
    | some t => if t = irr then false else true
    | none => false

/-- `materialList.map(...)` of `withLightScene`: null or unsupported
materials pass through; a supported one is checked for a conflicting
pre-existing map (throwing), then replaced by a freshly allocated staging
material (AO mode: `aoMap := irradiance`; lightmap mode: `aoMap` copied,
`lightMap := irradiance`) while the original material also gets the
irradiance texture assigned to the mode's map slot. -/
def stageMaterialList (aoMode : Bool) (irr : ℕ) :
    List (Option ℕ) → SceneState → Except String (List (Option ℕ) × SceneState)
  | [], st => Except.ok ([], st)
  | none :: rest, st =>
    match stageMaterialList aoMode irr rest st with
    | Except.error e => Except.error e
    | Except.ok (rs, st') => Except.ok (none :: rs, st')
  | some mid :: rest, st =>
    let mat := st.matProps mid
    if mat.supported = false then
      match stageMaterialList aoMode irr rest st with
      | Except.error e => Except.error e
      | Except.ok (rs, st') => Except.ok (some mid :: rs, st')
    else
      if mapConflict aoMode irr mat then
        Except.error "do not set your own AO/light map manually on baked scene meshes"
      else
        let sid := st.nextMatId
        let stagingMat : LMat :=
          if aoMode then { supported := true, aoMap := some irr, lightMap := none }
          else { supported := true, aoMap := mat.aoMap, lightMap := some irr }
        let origMat : LMat :=
          if aoMode then { mat with aoMap := some irr } else { mat with lightMap := some irr }
        let st1 : SceneState :=
          { st with
            matProps := Function.update (Function.update st.matProps mid origMat) sid stagingMat
            nextMatId := sid + 1 }
        match stageMaterialList aoMode irr rest st1 with
        | Except.error e => Except.error e
        | Except.ok (rs, st') => Except.ok (some sid :: rs, st')

/-- Accumulated setup bookkeeping: the state plus the
`meshCleanupList` / `suppressedCleanupList` arrays. -/
structure StageAcc where
  st : SceneState
  meshCleanupList : List ℕ
  suppressedCleanupList : List ℕ

/-- Processing of one traversal event inside the `for ... of
traverseSceneItems(...)` loop of `withLightScene`. -/
def stageEvent (aoMode : Bool) (irr : ℕ) (acc : StageAcc) (e : TEvent) :
    Except String StageAcc :=
  match e with
  | .ignored i =>
    -- the onIgnored callback: hide, unless already invisible
    if acc.st.visible i = true then
      Except.ok
        { acc with
          st := { acc.st with visible := Function.update acc.st.visible i false }
          suppressedCleanupList := acc.suppressedCleanupList ++ [i] }
    else
      Except.ok acc
  | .yielded i kind =>
    if aoMode = true ∧ kind = ObjKind.light then
      Except.ok
        { acc with
          st := { acc.st with visible := Function.update acc.st.visible i false }
          suppressedCleanupList := acc.suppressedCleanupList ++ [i] }
    else if kind = ObjKind.mesh then
      match stageMaterialList aoMode irr (slotMaterials (acc.st.material i)) acc.st with
      | Except.error e => Except.error e
      | Except.ok (rs, st') =>
        Except.ok
          { st :=
              { st' with
                stash := Function.update st'.stash i (some (acc.st.material i))
                material := Function.update st'.material i
                  (rebuildSlot (acc.st.material i) rs) }
            meshCleanupList := acc.meshCleanupList ++ [i]
            suppressedCleanupList := acc.suppressedCleanupList }
    else
      Except.ok acc

/-- The whole staging loop over the traversal events. -/
def stageEvents (aoMode : Bool) (irr : ℕ) :
    List TEvent → StageAcc → Except String StageAcc
  | [], acc => Except.ok acc
  | e :: es, acc =>
    match stageEvent aoMode irr acc e with
    | Except.error err => Except.error err
    | Except.ok acc' => stageEvents aoMode irr es acc'

/-- `suppressedCleanupList.forEach((object) => { object.visible = true })`. -/
def restoreSuppressed (st : SceneState) (ids : List ℕ) : SceneState :=
  ids.foldl (fun s i => { s with visible := Function.update s.visible i true }) st

/-- `meshCleanupList.forEach(...)`: pop the stash (always deleted), then
restore the original material reference if it was there (else only a
console error is logged). -/
def restoreMeshes (st : SceneState) (ids : List ℕ) : SceneState :=
  ids.foldl
    (fun s i =>
      match s.stash i with
      | none => { s with stash := Function.update s.stash i none }
      | some slot =>
        { s with
          stash := Function.update s.stash i none
          material := Function.update s.material i slot })
    st

/-- The `finally` block: remove the staging ambient light (AO mode),
re-show suppressed objects, restore stashed materials. -/
def cleanupLightScene (aoMode : Bool) (meshIds suppressedList : List ℕ)
    (st : SceneState) : SceneState :=
  let st1 := if aoMode then { st with sceneLights := st.sceneLights - 1 } else st
  let st2 := restoreSuppressed st1 suppressedList
  restoreMeshes st2 meshIds

/-- `withLightScene(workbench, taskCallback)`: stage the scene over the
traversal, add the AO ambient light if needed, run the task, and clean up
in a `finally` block whether the task resolved or threw; the task outcome
is then surfaced to the caller.  A staging (configuration) error escapes
before the `try`, without cleanup. -/
def withLightScene {ε : Type} (aoMode : Bool) (irr : ℕ) (root : SceneNode)
    (st : SceneState) (taskResult : Except ε Unit) :
    Except String (SceneState × Except ε Unit) :=
  match stageEvents aoMode irr (traverseNode st.visible false root) ⟨st, [], []⟩ with
  | Except.error e => Except.error e
  | Except.ok acc =>
    let stSetup :=
      if aoMode then { acc.st with sceneLights := acc.st.sceneLights + 1 } else acc.st
    Except.ok
      (cleanupLightScene aoMode acc.meshCleanupList acc.suppressedCleanupList stSetup,
        taskResult)

/-- The objects whose visibility the setup phase suppresses, read off the
event list: visible ignored objects, and every yielded light in AO mode. -/
def suppressedSpec (aoMode : Bool) (vis : ℕ → Bool) (events : List TEvent) : List ℕ :=
  events.filterMap (fun e =>
    match e with
    | .ignored i => if vis i = true then some i else none
    | .yielded i k => if aoMode = true ∧ k = ObjKind.light then some i else none)

/-- A single material slot entry that would trigger the fatal
pre-existing-map check. -/
def checkConflictAt (aoMode : Bool) (irr : ℕ) (props : ℕ → LMat) (mo : Option ℕ) : Bool :=
  match mo with
  | none => false
  | some mid => if (props mid).supported = true then mapConflict aoMode irr (props mid) else false

/-- A mesh whose material list contains a conflicting entry. -/
def meshHasConflict (aoMode : Bool) (irr : ℕ) (props : ℕ → LMat)
    (slot : MaterialSlot) : Bool :=
  (slotMaterials slot).any (checkConflictAt aoMode irr props)

section StagingLemmas

/-- `stageMaterialList` only touches `matProps` and the id counter. -/
theorem stageMaterialList_fields (aoMode : Bool) (irr : ℕ) :
    ∀ (ms : List (Option ℕ)) (st : SceneState) (rs : List (Option ℕ)) (st' : SceneState),
      stageMaterialList aoMode irr ms st = Except.ok (rs, st') →
      st'.visible = st.visible ∧ st'.material = st.material ∧ st'.stash = st.stash ∧
        st'.sceneLights = st.sceneLights ∧ st.nextMatId ≤ st'.nextMatId := by
  intro ms
  induction ms with
  | nil =>
    intro st rs st' h
    simp only [stageMaterialList] at h
    cases h
    exact ⟨rfl, rfl, rfl, rfl, le_refl _⟩
  | cons mo rest ih =>
    intro st rs st' h
    cases mo with
    | none =>
      simp only [stageMaterialList] at h
      cases hrec : stageMaterialList aoMode irr rest st with
      | error e => rw [hrec] at h; cases h
      | ok p =>
        rw [hrec] at h
        cases h
        exact ih st p.1 p.2 (by rw [hrec])
    | some mid =>
      simp only [stageMaterialList] at h
      by_cases hsup : (st.matProps mid).supported = false
      · rw [if_pos hsup] at h
        cases hrec : stageMaterialList aoMode irr rest st with
        | error e => rw [hrec] at h; cases h
        | ok p =>
          rw [hrec] at h
          cases h
          exact ih st p.1 p.2 (by rw [hrec])
      · rw [if_neg hsup] at h
        by_cases hconf : mapConflict aoMode irr (st.matProps mid) = true
        · rw [if_pos hconf] at h
          cases h
        · rw [if_neg hconf] at h
          set st1 : SceneState :=
            { st with
              matProps :=
                Function.update
                  (Function.update st.matProps mid
                    (if aoMode then { st.matProps mid with aoMap := some irr }
                     else { st.matProps mid with lightMap := some irr }))
                  st.nextMatId
                  (if aoMode then
                    { supported := true, aoMap := some irr, lightMap := none }
                   else
                    { supported := true, aoMap := (st.matProps mid).aoMap,
                      lightMap := some irr })
              nextMatId := st.nextMatId + 1 } with hst1
          cases hrec : stageMaterialList aoMode irr rest st1 with
          | error e => rw [hrec] at h; cases h
          | ok p =>
            rw [hrec] at h
            cases h
            obtain ⟨h1, h2, h3, h4, h5⟩ := ih st1 p.1 p.2 (by rw [hrec])
            refine ⟨h1, h2, h3, h4, ?_⟩
            have : st1.nextMatId = st.nextMatId + 1 := rfl
            omega

/-- Invariant relating the current material property map back to the
pre-call one: the counter only grows, and every pre-existing material's
supported flag and conflict status are unchanged (mutated originals get
the irradiance texture itself assigned, which is never a conflict). -/
def PropsInv (aoMode : Bool) (irr : ℕ) (st0 st : SceneState) : Prop :=
  st0.nextMatId ≤ st.nextMatId ∧
  ∀ m, m < st0.nextMatId →
    (st.matProps m).supported = (st0.matProps m).supported ∧
    mapConflict aoMode irr (st.matProps m) = mapConflict aoMode irr (st0.matProps m)

theorem mapConflict_self (aoMode : Bool) (irr : ℕ) (mat : LMat) :
    mapConflict aoMode irr
      (if aoMode then { mat with aoMap := some irr }
       else { mat with lightMap := some irr }) = false := by
  cases aoMode <;> simp [mapConflict]

/-- The staging loop throws exactly on a conflicting entry (measured
against the pre-call property map), and on success keeps `PropsInv`. -/
theorem stageMaterialList_conflict (aoMode : Bool) (irr : ℕ) (st0 : SceneState) :
    ∀ (ms : List (Option ℕ)) (st : SceneState),
      PropsInv aoMode irr st0 st →
      (∀ m, some m ∈ ms → m < st0.nextMatId) →
      (∀ e, stageMaterialList aoMode irr ms st = Except.error e →
        ∃ mo ∈ ms, checkConflictAt aoMode irr st0.matProps mo = true) ∧
      (∀ rs st', stageMaterialList aoMode irr ms st = Except.ok (rs, st') →
        PropsInv aoMode irr st0 st' ∧
        ∀ mo ∈ ms, checkConflictAt aoMode irr st0.matProps mo = false) := by
  intro ms
  induction ms with
  | nil =>
    intro st hInv _
    constructor
    · intro e h
      simp [stageMaterialList] at h
    · intro rs st' h
      simp only [stageMaterialList] at h
      cases h
      exact ⟨hInv, by simp⟩
  | cons mo rest ih =>
    intro st hInv href
    have hrefRest : ∀ m, some m ∈ rest → m < st0.nextMatId :=
      fun m hm => href m (List.mem_cons_of_mem mo hm)
    cases mo with
    | none =>
      obtain ⟨ihErr, ihOk⟩ := ih st hInv hrefRest
      constructor
      · intro e h
        simp only [stageMaterialList] at h
        cases hrec : stageMaterialList aoMode irr rest st with
        | error e' =>
          rw [hrec] at h
          obtain ⟨mo', hmo', hchk⟩ := ihErr e' hrec
          exact ⟨mo', List.mem_cons_of_mem none hmo', hchk⟩
        | ok p => rw [hrec] at h; cases h
      · intro rs st' h
        simp only [stageMaterialList] at h
        cases hrec : stageMaterialList aoMode irr rest st with
        | error e' => rw [hrec] at h; cases h
        | ok p =>
          rw [hrec] at h
          cases h
          obtain ⟨hInv', hall⟩ := ihOk p.1 p.2 (by rw [hrec])
          refine ⟨hInv', ?_⟩
          intro mo' hmo'
          rcases List.mem_cons.mp hmo' with rfl | hmo'
          · rfl
          · exact hall mo' hmo'
    | some mid =>
      have hmid : mid < st0.nextMatId := href mid (List.mem_cons_self _ _)
      obtain ⟨hsupEq, hconfEq⟩ := hInv.2 mid hmid
      by_cases hsup : (st.matProps mid).supported = false
      · obtain ⟨ihErr, ihOk⟩ := ih st hInv hrefRest
        have hchk0 : checkConflictAt aoMode irr st0.matProps (some mid) = false := by
          show (if (st0.matProps mid).supported = true then
            mapConflict aoMode irr (st0.matProps mid) else false) = false
          rw [if_neg]
          rw [← hsupEq]
          simp [hsup]
        constructor
        · intro e h
          simp only [stageMaterialList, if_pos hsup] at h
          cases hrec : stageMaterialList aoMode irr rest st with
          | error e' =>
            rw [hrec] at h
            obtain ⟨mo', hmo', hchk⟩ := ihErr e' hrec
            exact ⟨mo', List.mem_cons_of_mem _ hmo', hchk⟩
          | ok p => rw [hrec] at h; cases h
        · intro rs st' h
          simp only [stageMaterialList, if_pos hsup] at h
          cases hrec : stageMaterialList aoMode irr rest st with
          | error e' => rw [hrec] at h; cases h
          | ok p =>
            rw [hrec] at h
            cases h
            obtain ⟨hInv', hall⟩ := ihOk p.1 p.2 (by rw [hrec])
            refine ⟨hInv', ?_⟩
            intro mo' hmo'
            rcases List.mem_cons.mp hmo' with rfl | hmo'
            · exact hchk0
            · exact hall mo' hmo'
      · have hsup' : (st.matProps mid).supported = true := by
          cases hval : (st.matProps mid).supported
          · exact absurd hval hsup
          · rfl
        by_cases hconf : mapConflict aoMode irr (st.matProps mid) = true
        · have hchk1 : checkConflictAt aoMode irr st0.matProps (some mid) = true := by
            show (if (st0.matProps mid).supported = true then
              mapConflict aoMode irr (st0.matProps mid) else false) = true
            rw [if_pos (by rw [← hsupEq]; exact hsup'), ← hconfEq]
            exact hconf
          constructor
          · intro e h
            exact ⟨some mid, List.mem_cons_self _ _, hchk1⟩
          · intro rs st' h
            simp only [stageMaterialList, if_neg hsup, if_pos hconf] at h
            cases h
        · have hchk0 : checkConflictAt aoMode irr st0.matProps (some mid) = false := by
            show (if (st0.matProps mid).supported = true then
              mapConflict aoMode irr (st0.matProps mid) else false) = false
            rw [if_pos (by rw [← hsupEq]; exact hsup'), ← hconfEq]
            simpa using hconf
          set st1 : SceneState :=
            { st with
              matProps :=
                Function.update
                  (Function.update st.matProps mid
                    (if aoMode then { st.matProps mid with aoMap := some irr }
                     else { st.matProps mid with lightMap := some irr }))
                  st.nextMatId
                  (if aoMode then
                    { supported := true, aoMap := some irr, lightMap := none }
                   else
                    { supported := true, aoMap := (st.matProps mid).aoMap,
                      lightMap := some irr })
              nextMatId := st.nextMatId + 1 } with hst1
          have hInv1 : PropsInv aoMode irr st0 st1 := by
            constructor
            · have h1 : st1.nextMatId = st.nextMatId + 1 := rfl
              have h2 := hInv.1
              omega
            · intro m hm
              have hmne : m ≠ st.nextMatId := by
                have := hInv.1
                omega
              have hprops : st1.matProps m =
                  Function.update st.matProps mid
                    (if aoMode then { st.matProps mid with aoMap := some irr }
                     else { st.matProps mid with lightMap := some irr }) m := by
                show Function.update _ st.nextMatId _ m = _
                rw [Function.update_noteq hmne]
              by_cases hmmid : m = mid
              · subst hmmid
                rw [hprops, Function.update_same]
                constructor
                · rw [← (hInv.2 m hm).1]
                  cases aoMode <;> rfl
                · rw [mapConflict_self, ← (hInv.2 m hm).2]
                  cases hc : mapConflict aoMode irr (st.matProps m)
                  · rfl
                  · exact absurd hc hconf
              · rw [hprops, Function.update_noteq hmmid]
                exact hInv.2 m hm
          obtain ⟨ihErr, ihOk⟩ := ih st1 hInv1 hrefRest
          constructor
          · intro e h
            simp only [stageMaterialList, if_neg hsup, if_neg hconf] at h
            cases hrec : stageMaterialList aoMode irr rest st1 with
            | error e' =>
              rw [← hst1, hrec] at h
              obtain ⟨mo', hmo', hchk⟩ := ihErr e' hrec
              exact ⟨mo', List.mem_cons_of_mem _ hmo', hchk⟩
            | ok p => rw [← hst1, hrec] at h; cases h
          · intro rs st' h
            simp only [stageMaterialList, if_neg hsup, if_neg hconf] at h
            cases hrec : stageMaterialList aoMode irr rest st1 with
            | error e' => rw [← hst1, hrec] at h; cases h
            | ok p =>
              rw [← hst1, hrec] at h
              cases h
              obtain ⟨hInv', hall⟩ := ihOk p.1 p.2 (by rw [hrec])
              refine ⟨hInv', ?_⟩
              intro mo' hmo'
              rcases List.mem_cons.mp hmo' with rfl | hmo'
              · exact hchk0
              · exact hall mo' hmo'

end StagingLemmas

section SetupFold

/-- Invariant carried through the staging loop, relative to the pre-call
state `st0` and the remaining events `rem`. -/
structure SetupInv (aoMode : Bool) (irr : ℕ) (st0 : SceneState) (rem : List TEvent)
    (acc : StageAcc) : Prop where
  stash_mesh : ∀ i ∈ acc.meshCleanupList, acc.st.stash i = some (st0.material i)
  mat_other : ∀ i, i ∉ acc.meshCleanupList → acc.st.material i = st0.material i
  vis_other : ∀ i, i ∉ acc.suppressedCleanupList → acc.st.visible i = st0.visible i
  mesh_nodup : acc.meshCleanupList.Nodup
  supp_nodup : acc.suppressedCleanupList.Nodup
  lights_eq : acc.st.sceneLights = st0.sceneLights
  mesh_fresh : ∀ i ∈ acc.meshCleanupList, i ∉ rem.map eventId
  supp_fresh : ∀ i ∈ acc.suppressedCleanupList, i ∉ rem.map eventId
  props : PropsInv aoMode irr st0 acc.st

theorem nodup_snoc (l : List ℕ) (i : ℕ) (hl : l.Nodup) (hi : i ∉ l) :
    (l ++ [i]).Nodup := by
  refine List.Nodup.append hl (List.nodup_singleton i) ?_
  intro a ha hmem
  rw [List.mem_singleton] at hmem
  subst hmem
  exact hi ha

theorem stageEvent_step (aoMode : Bool) (irr : ℕ) (st0 : SceneState)
    (hfresh : ∀ i m, some m ∈ slotMaterials (st0.material i) → m < st0.nextMatId)
    (e : TEvent) (rest : List TEvent) (acc : StageAcc)
    (hnodup : ((e :: rest).map eventId).Nodup)
    (hInv : SetupInv aoMode irr st0 (e :: rest) acc) :
    (∀ acc1, stageEvent aoMode irr acc e = Except.ok acc1 →
      SetupInv aoMode irr st0 rest acc1 ∧
      acc1.suppressedCleanupList =
        acc.suppressedCleanupList ++ suppressedSpec aoMode st0.visible [e] ∧
      (∀ i, e = TEvent.yielded i ObjKind.mesh →
        meshHasConflict aoMode irr st0.matProps (st0.material i) = false)) ∧
    (∀ err, stageEvent aoMode irr acc e = Except.error err →
      ∃ i, e = TEvent.yielded i ObjKind.mesh ∧
        meshHasConflict aoMode irr st0.matProps (st0.material i) = true) := by
  have hheadrest : eventId e ∉ rest.map eventId := by
    have := hnodup
    rw [List.map_cons, List.nodup_cons] at this
    exact this.1
  cases e with
  | ignored i =>
    have hid : eventId (TEvent.ignored i) = i := rfl
    have hisupp : i ∉ acc.suppressedCleanupList := by
      intro hmem
      exact hInv.supp_fresh i hmem (by simp [eventId])
    have himesh : i ∉ acc.meshCleanupList := by
      intro hmem
      exact hInv.mesh_fresh i hmem (by simp [eventId])
    have hvis : acc.st.visible i = st0.visible i := hInv.vis_other i hisupp
    constructor
    · intro acc1 hstep
      refine ⟨?_, ?_, by intro _ h; cases h⟩
      all_goals
        simp only [stageEvent] at hstep
      · by_cases hv : acc.st.visible i = true
        · rw [if_pos hv] at hstep
          cases hstep
          refine
            { stash_mesh := hInv.stash_mesh
              mat_other := hInv.mat_other
              vis_other := ?_
              mesh_nodup := hInv.mesh_nodup
              supp_nodup := nodup_snoc _ i hInv.supp_nodup hisupp
              lights_eq := hInv.lights_eq
              mesh_fresh := fun j hj => ?_
              supp_fresh := fun j hj => ?_
              props := hInv.props }
          · intro j hj
            rw [List.mem_append, List.mem_singleton] at hj
            push_neg at hj
            show Function.update acc.st.visible i false j = st0.visible j
            rw [Function.update_noteq hj.2]
            exact hInv.vis_other j hj.1
          · have := hInv.mesh_fresh j hj
            simp only [List.map_cons, List.mem_cons] at this
            push_neg at this
            exact this.2
          · rw [List.mem_append, List.mem_singleton] at hj
            rcases hj with hj | rfl
            · have := hInv.supp_fresh j hj
              simp only [List.map_cons, List.mem_cons] at this
              push_neg at this
              exact this.2
            · exact hheadrest
        · rw [if_neg hv] at hstep
          cases hstep
          refine
            { stash_mesh := hInv.stash_mesh
              mat_other := hInv.mat_other
              vis_other := hInv.vis_other
              mesh_nodup := hInv.mesh_nodup
              supp_nodup := hInv.supp_nodup
              lights_eq := hInv.lights_eq
              mesh_fresh := fun j hj => ?_
              supp_fresh := fun j hj => ?_
              props := hInv.props }
          · have := hInv.mesh_fresh j hj
            simp only [List.map_cons, List.mem_cons] at this
            push_neg at this
            exact this.2
          · have := hInv.supp_fresh j hj
            simp only [List.map_cons, List.mem_cons] at this
            push_neg at this
            exact this.2
      · by_cases hv : acc.st.visible i = true
        · rw [if_pos hv] at hstep
          cases hstep
          have hv0 : st0.visible i = true := by rw [← hvis]; exact hv
          simp [suppressedSpec, hv0]
        · rw [if_neg hv] at hstep
          cases hstep
          have hv0 : st0.visible i = false := by
            rw [← hvis]
            cases hval : acc.st.visible i
            · rfl
            · exact absurd hval hv
          simp [suppressedSpec, hv0]
    · intro err hstep
      simp only [stageEvent] at hstep
      by_cases hv : acc.st.visible i = true
      · rw [if_pos hv] at hstep; cases hstep
      · rw [if_neg hv] at hstep; cases hstep
  | yielded i kind =>
    have hisupp : i ∉ acc.suppressedCleanupList := by
      intro hmem
      exact hInv.supp_fresh i hmem (by simp [eventId])
    have himesh : i ∉ acc.meshCleanupList := by
      intro hmem
      exact hInv.mesh_fresh i hmem (by simp [eventId])
    by_cases hlight : aoMode = true ∧ kind = ObjKind.light
    · -- AO mode: the yielded light is hidden and recorded for cleanup
      constructor
      · intro acc1 hstep
        simp only [stageEvent, if_pos hlight] at hstep
        cases hstep
        refine ⟨?_, ?_, ?_⟩
        · refine
            { stash_mesh := hInv.stash_mesh
              mat_other := hInv.mat_other
              vis_other := ?_
              mesh_nodup := hInv.mesh_nodup
              supp_nodup := nodup_snoc _ i hInv.supp_nodup hisupp
              lights_eq := hInv.lights_eq
              mesh_fresh := fun j hj => ?_
              supp_fresh := fun j hj => ?_
              props := hInv.props }
          · intro j hj
            rw [List.mem_append, List.mem_singleton] at hj
            push_neg at hj
            show Function.update acc.st.visible i false j = st0.visible j
            rw [Function.update_noteq hj.2]
            exact hInv.vis_other j hj.1
          · have := hInv.mesh_fresh j hj
            simp only [List.map_cons, List.mem_cons] at this
            push_neg at this
            exact this.2
          · rw [List.mem_append, List.mem_singleton] at hj
            rcases hj with hj | rfl
            · have := hInv.supp_fresh j hj
              simp only [List.map_cons, List.mem_cons] at this
              push_neg at this
              exact this.2
            · exact hheadrest
        · simp [suppressedSpec, hlight.1, hlight.2]
        · intro j hj
          cases hj
          cases hlight.2
      · intro err hstep
        simp only [stageEvent, if_pos hlight] at hstep
        cases hstep
    · by_cases hmesh : kind = ObjKind.mesh
      · -- a mesh: its material list is staged
        subst hmesh
        have hslot : acc.st.material i = st0.material i := hInv.mat_other i himesh
        have hchar := stageMaterialList_conflict aoMode irr st0
          (slotMaterials (acc.st.material i)) acc.st hInv.props
          (by
            intro m hm
            rw [hslot] at hm
            exact hfresh i m hm)
        constructor
        · intro acc1 hstep
          simp only [stageEvent, if_neg hlight, if_pos rfl] at hstep
          cases hrec : stageMaterialList aoMode irr
              (slotMaterials (acc.st.material i)) acc.st with
          | error e' => rw [hrec] at hstep; cases hstep
          | ok p =>
            rw [hrec] at hstep
            cases hstep
            obtain ⟨hvis', hmat', hstash', hlights', hnext'⟩ :=
              stageMaterialList_fields aoMode irr _ acc.st p.1 p.2 (by rw [hrec])
            obtain ⟨hInvP, hall⟩ := hchar.2 p.1 p.2 (by rw [hrec])
            refine ⟨?_, by simp [suppressedSpec], ?_⟩
            · refine
                { stash_mesh := fun j hj => ?_
                  mat_other := fun j hj => ?_
                  vis_other := fun j hj => ?_
                  mesh_nodup := nodup_snoc _ i hInv.mesh_nodup himesh
                  supp_nodup := hInv.supp_nodup
                  lights_eq := by
                    show p.2.sceneLights = st0.sceneLights
                    rw [hlights']
                    exact hInv.lights_eq
                  mesh_fresh := fun j hj => ?_
                  supp_fresh := fun j hj => ?_
                  props := ?_ }
              · rw [List.mem_append, List.mem_singleton] at hj
                show Function.update p.2.stash i (some (acc.st.material i)) j =
                  some (st0.material j)
                rcases hj with hj | rfl
                · have hne : j ≠ i := by
                    intro hji
                    subst hji
                    exact himesh hj
                  rw [Function.update_noteq hne, hstash']
                  exact hInv.stash_mesh j hj
                · rw [Function.update_same, hslot]
              · rw [List.mem_append, List.mem_singleton] at hj
                push_neg at hj
                show Function.update p.2.material i
                    (rebuildSlot (acc.st.material i) p.1) j = st0.material j
                rw [Function.update_noteq hj.2, hmat']
                exact hInv.mat_other j hj.1
              · show p.2.visible j = st0.visible j
                rw [hvis']
                exact hInv.vis_other j hj
              · rw [List.mem_append, List.mem_singleton] at hj
                rcases hj with hj | rfl
                · have := hInv.mesh_fresh j hj
                  simp only [List.map_cons, List.mem_cons] at this
                  push_neg at this
                  exact this.2
                · exact hheadrest
              · have := hInv.supp_fresh j hj
                simp only [List.map_cons, List.mem_cons] at this
                push_neg at this
                exact this.2
              · exact hInvP
            · intro j hj
              cases hj
              unfold meshHasConflict
              rw [List.any_eq_false]
              intro mo hmo
              rw [← hslot] at hmo
              simp [hall mo hmo]
        · intro err hstep
          simp only [stageEvent, if_neg hlight, if_pos rfl] at hstep
          cases hrec : stageMaterialList aoMode irr
              (slotMaterials (acc.st.material i)) acc.st with
          | error e' =>
            obtain ⟨mo, hmo, hchk⟩ := hchar.1 e' hrec
            refine ⟨i, rfl, ?_⟩
            unfold meshHasConflict
            rw [List.any_eq_true]
            rw [hslot] at hmo
            exact ⟨mo, hmo, hchk⟩
          | ok p => rw [hrec] at hstep; cases hstep
      · -- neither a light to hide nor a mesh: nothing happens
        constructor
        · intro acc1 hstep
          simp only [stageEvent, if_neg hlight, if_neg hmesh] at hstep
          cases hstep
          refine ⟨?_, ?_, ?_⟩
          · refine
              { stash_mesh := hInv.stash_mesh
                mat_other := hInv.mat_other
                vis_other := hInv.vis_other
                mesh_nodup := hInv.mesh_nodup
                supp_nodup := hInv.supp_nodup
                lights_eq := hInv.lights_eq
                mesh_fresh := fun j hj => ?_
                supp_fresh := fun j hj => ?_
                props := hInv.props }
            · have := hInv.mesh_fresh j hj
              simp only [List.map_cons, List.mem_cons] at this
              push_neg at this
              exact this.2
            · have := hInv.supp_fresh j hj
              simp only [List.map_cons, List.mem_cons] at this
              push_neg at this
              exact this.2
          · have hnl : ¬(aoMode = true ∧ kind = ObjKind.light) := hlight
            simp [suppressedSpec, hnl]
          · intro j hj
            cases hj
            exact absurd rfl hmesh
        · intro err hstep
          simp only [stageEvent, if_neg hlight, if_neg hmesh] at hstep
          cases hstep

theorem suppressedSpec_append (aoMode : Bool) (vis : ℕ → Bool) (l1 l2 : List TEvent) :
    suppressedSpec aoMode vis (l1 ++ l2) =
      suppressedSpec aoMode vis l1 ++ suppressedSpec aoMode vis l2 := by
  unfold suppressedSpec
  rw [List.filterMap_append]

theorem stageEvents_spec (aoMode : Bool) (irr : ℕ) (st0 : SceneState)
    (hfresh : ∀ i m, some m ∈ slotMaterials (st0.material i) → m < st0.nextMatId) :
    ∀ (es : List TEvent) (acc : StageAcc),
      (es.map eventId).Nodup →
      SetupInv aoMode irr st0 es acc →
      (∀ acc', stageEvents aoMode irr es acc = Except.ok acc' →
        SetupInv aoMode irr st0 [] acc' ∧
        acc'.suppressedCleanupList =
          acc.suppressedCleanupList ++ suppressedSpec aoMode st0.visible es ∧
        (∀ ev ∈ es, ∀ i, ev = TEvent.yielded i ObjKind.mesh →
          meshHasConflict aoMode irr st0.matProps (st0.material i) = false)) ∧
      (∀ e, stageEvents aoMode irr es acc = Except.error e →
        ∃ ev ∈ es, ∃ i, ev = TEvent.yielded i ObjKind.mesh ∧
          meshHasConflict aoMode irr st0.matProps (st0.material i) = true) := by
  intro es
  induction es with
  | nil =>
    intro acc _ hInv
    constructor
    · intro acc' h
      simp only [stageEvents] at h
      cases h
      exact ⟨hInv, by simp [suppressedSpec], by simp⟩
    · intro e h
      simp only [stageEvents] at h
      cases h
  | cons e rest ih =>
    intro acc hnodup hInv
    have hstep := stageEvent_step aoMode irr st0 hfresh e rest acc hnodup hInv
    have hnodupRest : (rest.map eventId).Nodup := by
      rw [List.map_cons, List.nodup_cons] at hnodup
      exact hnodup.2
    constructor
    · intro acc' h
      simp only [stageEvents] at h
      cases hev : stageEvent aoMode irr acc e with
      | error err => rw [hev] at h; cases h
      | ok acc1 =>
        rw [hev] at h
        obtain ⟨hInv1, hsupp1, hconfFree⟩ := hstep.1 acc1 hev
        obtain ⟨hInv', hsupp', hfree'⟩ := (ih acc1 hnodupRest hInv1).1 acc' h
        refine ⟨hInv', ?_, ?_⟩
        · rw [hsupp', hsupp1]
          rw [show (e :: rest) = [e] ++ rest from rfl,
            suppressedSpec_append, List.append_assoc]
        · intro ev hev' i hevi
          rcases List.mem_cons.mp hev' with rfl | hev'
          · exact hconfFree i hevi
          · exact hfree' ev hev' i hevi
    · intro err h
      simp only [stageEvents] at h
      cases hev : stageEvent aoMode irr acc e with
      | error err' =>
        rw [hev] at h
        obtain ⟨i, hevi, hconf⟩ := hstep.2 err' hev
        exact ⟨e, List.mem_cons_self e rest, i, hevi, hconf⟩
      | ok acc1 =>
        rw [hev] at h
        obtain ⟨hInv1, -, -⟩ := hstep.1 acc1 hev
        obtain ⟨ev, hev', i, hevi, hconf⟩ := (ih acc1 hnodupRest hInv1).2 err h
        exact ⟨ev, List.mem_cons_of_mem e hev', i, hevi, hconf⟩

end SetupFold

section CleanupLemmas

theorem restoreSuppressed_spec (ids : List ℕ) : ∀ (st : SceneState),
    (∀ i ∈ ids, (restoreSuppressed st ids).visible i = true) ∧
    (∀ i, i ∉ ids → (restoreSuppressed st ids).visible i = st.visible i) ∧
    (restoreSuppressed st ids).material = st.material ∧
    (restoreSuppressed st ids).stash = st.stash ∧
    (restoreSuppressed st ids).sceneLights = st.sceneLights := by
  induction ids with
  | nil =>
    intro st
    exact ⟨by simp, fun i _ => rfl, rfl, rfl, rfl⟩
  | cons a rest ih =>
    intro st
    have hstep : restoreSuppressed st (a :: rest) =
        restoreSuppressed { st with visible := Function.update st.visible a true } rest := rfl
    obtain ⟨ih1, ih2, ih3, ih4, ih5⟩ :=
      ih { st with visible := Function.update st.visible a true }
    rw [hstep]
    refine ⟨?_, ?_, ih3, ih4, ih5⟩
    · intro i hi
      rcases List.mem_cons.mp hi with rfl | hi'
      · by_cases hmem : i ∈ rest
        · exact ih1 i hmem
        · rw [ih2 i hmem]
          show Function.update st.visible i true i = true
          rw [Function.update_same]
      · exact ih1 i hi'
    · intro i hi
      rw [List.mem_cons] at hi
      push_neg at hi
      rw [ih2 i hi.2]
      show Function.update st.visible a true i = st.visible i
      rw [Function.update_noteq hi.1]

theorem restoreMeshes_spec (st0 : SceneState) (ids : List ℕ) : ∀ (st : SceneState),
    (∀ i ∈ ids, st.stash i = some (st0.material i)) →
    ids.Nodup →
    (∀ i ∈ ids, (restoreMeshes st ids).material i = st0.material i) ∧
    (∀ i, i ∉ ids → (restoreMeshes st ids).material i = st.material i) ∧
    (restoreMeshes st ids).visible = st.visible ∧
    (restoreMeshes st ids).sceneLights = st.sceneLights := by
  induction ids with
  | nil =>
    intro st _ _
    exact ⟨by simp, fun i _ => rfl, rfl, rfl⟩
  | cons a rest ih =>
    intro st hstash hnodup
    have hsa : st.stash a = some (st0.material a) := hstash a (List.mem_cons_self a rest)
    have hanr : a ∉ rest := (List.nodup_cons.mp hnodup).1
    set st1 : SceneState :=
      { st with
        stash := Function.update st.stash a none
        material := Function.update st.material a (st0.material a) } with hst1
    have hstep : restoreMeshes st (a :: rest) = restoreMeshes st1 rest := by
      show List.foldl _ _ (a :: rest) = _
      rw [List.foldl_cons]
      congr 1
      show (match st.stash a with
        | none => { st with stash := Function.update st.stash a none }
        | some slot =>
          { st with
            stash := Function.update st.stash a none
            material := Function.update st.material a slot }) = st1
      rw [hsa]
    have hstashRest : ∀ i ∈ rest, st1.stash i = some (st0.material i) := by
      intro i hi
      have hne : i ≠ a := fun h => hanr (h ▸ hi)
      show Function.update st.stash a none i = _
      rw [Function.update_noteq hne]
      exact hstash i (List.mem_cons_of_mem a hi)
    obtain ⟨ih1, ih2, ih3, ih4⟩ := ih st1 hstashRest (List.nodup_cons.mp hnodup).2
    rw [hstep]
    refine ⟨?_, ?_, by rw [ih3], ih4⟩
    · intro i hi
      rcases List.mem_cons.mp hi with rfl | hi'
      · rw [ih2 i hanr]
        show Function.update st.material i (st0.material i) i = _
        rw [Function.update_same]
      · exact ih1 i hi'
    · intro i hi
      rw [List.mem_cons] at hi
      push_neg at hi
      rw [ih2 i hi.2]
      show Function.update st.material a (st0.material a) i = st.material i
      rw [Function.update_noteq hi.1]

end CleanupLemmas

section ClaimC4

/-- The initial accumulator satisfies the invariant. -/
theorem setupInv_init (aoMode : Bool) (irr : ℕ) (st : SceneState) (es : List TEvent) :
    SetupInv aoMode irr st es ⟨st, [], []⟩ :=
  { stash_mesh := by simp
    mat_other := fun _ _ => rfl
    vis_other := fun _ _ => rfl
    mesh_nodup := List.nodup_nil
    supp_nodup := List.nodup_nil
    lights_eq := rfl
    mesh_fresh := by simp
    supp_fresh := by simp
    props := ⟨le_refl _, fun m _ => ⟨rfl, rfl⟩⟩ }

/-- C4: whenever the setup phase succeeds, `withLightScene` runs its task
and then — whether the task resolved or threw — restores every mesh's
material reference to its pre-call value, sets every visibility-suppressed
object (visible ignored items, and yielded lights in AO mode) back to
`visible = true`, removes the temporary AO ambient light again, and
surfaces the task's outcome (value or error) unchanged to the caller. -/
theorem claim_C4_withLightScene_cleanup {ε : Type} (aoMode : Bool) (irr : ℕ)
    (root : SceneNode) (st : SceneState) (taskResult : Except ε Unit)
    (hnodup : ((traverseNode st.visible false root).map eventId).Nodup)
    (hfresh : ∀ i m, some m ∈ slotMaterials (st.material i) → m < st.nextMatId) :
    ∀ stFinal res,
      withLightScene aoMode irr root st taskResult = Except.ok (stFinal, res) →
      res = taskResult ∧
      (∀ id, stFinal.material id = st.material id) ∧
      (∀ id ∈ suppressedSpec aoMode st.visible (traverseNode st.visible false root),
        stFinal.visible id = true) ∧
      (∀ id, id ∉ suppressedSpec aoMode st.visible (traverseNode st.visible false root) →
        stFinal.visible id = st.visible id) ∧
      stFinal.sceneLights = st.sceneLights := by
  intro stFinal res h
  unfold withLightScene at h
  cases hev : stageEvents aoMode irr (traverseNode st.visible false root) ⟨st, [], []⟩ with
  | error e => rw [hev] at h; cases h
  | ok acc =>
    rw [hev] at h
    cases h
    obtain ⟨hInv, hsupp, -⟩ :=
      (stageEvents_spec aoMode irr st hfresh (traverseNode st.visible false root)
        ⟨st, [], []⟩ hnodup (setupInv_init aoMode irr st _)).1 acc hev
    have hsuppList : acc.suppressedCleanupList =
        suppressedSpec aoMode st.visible (traverseNode st.visible false root) := by
      rw [hsupp]
      simp
    set stSetup :=
      if aoMode then { acc.st with sceneLights := acc.st.sceneLights + 1 } else acc.st
      with hstSetup
    have hSfields : stSetup.visible = acc.st.visible ∧ stSetup.material = acc.st.material ∧
        stSetup.stash = acc.st.stash := by
      rw [hstSetup]
      cases aoMode <;> exact ⟨rfl, rfl, rfl⟩
    set st1 := if aoMode then { stSetup with sceneLights := stSetup.sceneLights - 1 }
      else stSetup with hst1
    have h1fields : st1.visible = acc.st.visible ∧ st1.material = acc.st.material ∧
        st1.stash = acc.st.stash := by
      rw [hst1]
      cases aoMode <;> simpa using hSfields
    have h1lights : st1.sceneLights = st.sceneLights := by
      rw [hst1, hstSetup]
      cases aoMode <;> simp [hInv.lights_eq]
    obtain ⟨hrs1, hrs2, hrs3, hrs4, hrs5⟩ := restoreSuppressed_spec acc.suppressedCleanupList st1
    set st2 := restoreSuppressed st1 acc.suppressedCleanupList with hst2
    obtain ⟨hrm1, hrm2, hrm3, hrm4⟩ := restoreMeshes_spec st acc.meshCleanupList st2
      (by
        intro i hi
        rw [hst2, hrs4, h1fields.2.2]
        exact hInv.stash_mesh i hi)
      hInv.mesh_nodup
    have hfinal : cleanupLightScene aoMode acc.meshCleanupList acc.suppressedCleanupList
        stSetup = restoreMeshes st2 acc.meshCleanupList := by
      rw [hst2, hst1]
      rfl
    refine ⟨rfl, ?_, ?_, ?_, ?_⟩
    · intro id
      rw [hfinal]
      by_cases hid : id ∈ acc.meshCleanupList
      · exact hrm1 id hid
      · rw [hrm2 id hid, hst2, hrs3, h1fields.2.1]
        exact hInv.mat_other id hid
    · intro id hid
      rw [hfinal, hrm3, hst2]
      exact hrs1 id (by rw [hsuppList]; exact hid)
    · intro id hid
      rw [hfinal, hrm3, hst2, hrs2 id (by rw [hsuppList]; exact hid), h1fields.1]
      exact hInv.vis_other id (by rw [hsuppList]; exact hid)
    · rw [hfinal, hrm4, hst2, hrs5, h1lights]

/-- Witness for C4: a three-object scene (mesh root with a light child and
an ignored child) staged in AO mode, with a task that throws. -/
theorem claim_C4_witness :
    (((traverseNode (fun _ => true) false
        (SceneNode.node 0 ObjKind.mesh false false
          [SceneNode.node 1 ObjKind.light false false [],
           SceneNode.node 2 ObjKind.other true false []])).map eventId).Nodup ∧
      (∀ i m, some m ∈ slotMaterials
          ((({ visible := fun _ => true, material := fun _ => MaterialSlot.single none,
               matProps := fun _ => { supported := false, aoMap := none, lightMap := none },
               stash := fun _ => none, sceneLights := 0,
               nextMatId := 0 } : SceneState)).material i) →
        m < ({ visible := fun _ => true, material := fun _ => MaterialSlot.single none,
               matProps := fun _ => { supported := false, aoMap := none, lightMap := none },
               stash := fun _ => none, sceneLights := 0,
               nextMatId := 0 } : SceneState).nextMatId)) ∧
    (∀ stFinal res,
      withLightScene true 0
          (SceneNode.node 0 ObjKind.mesh false false
            [SceneNode.node 1 ObjKind.light false false [],
             SceneNode.node 2 ObjKind.other true false []])
          { visible := fun _ => true, material := fun _ => MaterialSlot.single none,
            matProps := fun _ => { supported := false, aoMap := none, lightMap := none },
            stash := fun _ => none, sceneLights := 0, nextMatId := 0 }
          (Except.error "injected mid-bake failure") =
        Except.ok (stFinal, res) →
      res = Except.error "injected mid-bake failure" ∧
      (∀ id, stFinal.material id = MaterialSlot.single none) ∧
      (∀ id ∈ suppressedSpec true (fun _ => true)
          (traverseNode (fun _ => true) false
            (SceneNode.node 0 ObjKind.mesh false false
              [SceneNode.node 1 ObjKind.light false false [],
               SceneNode.node 2 ObjKind.other true false []])),
        stFinal.visible id = true) ∧
      (∀ id, id ∉ suppressedSpec true (fun _ => true)
          (traverseNode (fun _ => true) false
            (SceneNode.node 0 ObjKind.mesh false false
              [SceneNode.node 1 ObjKind.light false false [],
               SceneNode.node 2 ObjKind.other true false []])) →
        stFinal.visible id = true) ∧
      stFinal.sceneLights = 0) :=
  ⟨⟨by decide, by intro i m hm; simp [slotMaterials] at hm⟩,
    claim_C4_withLightScene_cleanup true 0
      (SceneNode.node 0 ObjKind.mesh false false
        [SceneNode.node 1 ObjKind.light false false [],
         SceneNode.node 2 ObjKind.other true false []])
      { visible := fun _ => true, material := fun _ => MaterialSlot.single none,
        matProps := fun _ => { supported := false, aoMap := none, lightMap := none },
        stash := fun _ => none, sceneLights := 0, nextMatId := 0 }
      (Except.error "injected mid-bake failure")
      (by decide) (by intro i m hm; simp [slotMaterials] at hm)⟩

end ClaimC4

section ClaimC9

theorem checkConflictAt_iff (aoMode : Bool) (irr : ℕ) (props : ℕ → LMat)
    (mo : Option ℕ) :
    checkConflictAt aoMode irr props mo = true ↔
      ∃ m, mo = some m ∧ (props m).supported = true ∧
        (if aoMode = true then ∃ t, (props m).aoMap = some t ∧ t ≠ irr
         else ∃ t, (props m).lightMap = some t ∧ t ≠ irr) := by
  cases mo with
  | none => simp [checkConflictAt]
  | some mid =>
    show (if (props mid).supported = true then mapConflict aoMode irr (props mid)
      else false) = true ↔ _
    by_cases hs : (props mid).supported = true
    · rw [if_pos hs]
      unfold mapConflict
      cases aoMode with
      | false =>
        cases hl : (props mid).lightMap with
        | none => simp [hl, hs]
        | some t =>
          by_cases ht : t = irr
          · simp [hl, hs, ht]
          · simp [hl, hs, ht]
      | true =>
        cases hl : (props mid).aoMap with
        | none => simp [hl, hs]
        | some t =>
          by_cases ht : t = irr
          · simp [hl, hs, ht]
          · simp [hl, hs, ht]
    · rw [if_neg hs]
      simp [hs]

theorem meshHasConflict_iff (aoMode : Bool) (irr : ℕ) (props : ℕ → LMat)
    (slot : MaterialSlot) :
    meshHasConflict aoMode irr props slot = true ↔
      ∃ mo ∈ slotMaterials slot, ∃ m, mo = some m ∧ (props m).supported = true ∧
        (if aoMode = true then ∃ t, (props m).aoMap = some t ∧ t ≠ irr
         else ∃ t, (props m).lightMap = some t ∧ t ≠ irr) := by
  unfold meshHasConflict
  rw [List.any_eq_true]
  constructor
  · rintro ⟨mo, hmo, hchk⟩
    exact ⟨mo, hmo, (checkConflictAt_iff aoMode irr props mo).mp hchk⟩
  · rintro ⟨mo, hmo, hex⟩
    exact ⟨mo, hmo, (checkConflictAt_iff aoMode irr props mo).mpr hex⟩

/-- C9: the staging phase of `withLightScene` throws the fatal
configuration error exactly when some baked (traversal-yielded) mesh has
a supported material whose mode-relevant map slot is already set to a
texture other than the workbench's own irradiance texture: `aoMap` in AO
mode, `lightMap` in lightmap mode.  A material whose map slot is empty or
already the workbench irradiance texture never triggers it. -/
theorem claim_C9_preexisting_map_error {ε : Type} (aoMode : Bool) (irr : ℕ)
    (root : SceneNode) (st : SceneState) (taskResult : Except ε Unit)
    (hnodup : ((traverseNode st.visible false root).map eventId).Nodup)
    (hfresh : ∀ i m, some m ∈ slotMaterials (st.material i) → m < st.nextMatId) :
    (∃ e, withLightScene aoMode irr root st taskResult = Except.error e) ↔
      ∃ ev ∈ traverseNode st.visible false root, ∃ i,
        ev = TEvent.yielded i ObjKind.mesh ∧
        ∃ mo ∈ slotMaterials (st.material i), ∃ m, mo = some m ∧
          (st.matProps m).supported = true ∧
          (if aoMode = true then ∃ t, (st.matProps m).aoMap = some t ∧ t ≠ irr
           else ∃ t, (st.matProps m).lightMap = some t ∧ t ≠ irr) := by
  have hspec := stageEvents_spec aoMode irr st hfresh (traverseNode st.visible false root)
    ⟨st, [], []⟩ hnodup (setupInv_init aoMode irr st _)
  unfold withLightScene
  cases hev : stageEvents aoMode irr (traverseNode st.visible false root) ⟨st, [], []⟩ with
  | ok acc =>
    obtain ⟨-, -, hfree⟩ := hspec.1 acc hev
    constructor
    · rintro ⟨e, he⟩
      cases he
    · rintro ⟨ev, hevmem, i, rfl, hconf⟩
      have h1 := hfree _ hevmem i rfl
      have h2 : meshHasConflict aoMode irr st.matProps (st.material i) = true :=
        (meshHasConflict_iff aoMode irr st.matProps (st.material i)).mpr hconf
      rw [h1] at h2
      cases h2
  | error e =>
    obtain ⟨ev, hevmem, i, hevi, hconf⟩ := hspec.2 e hev
    constructor
    · intro _
      exact ⟨ev, hevmem, i, hevi,
        (meshHasConflict_iff aoMode irr st.matProps (st.material i)).mp hconf⟩
    · intro _
      exact ⟨e, rfl⟩

/-- Witness for C9: a one-mesh scene in AO mode whose single supported
material already carries a foreign `aoMap` (texture 5, irradiance 0);
staging throws. -/
theorem claim_C9_witness :
    (((traverseNode (fun _ => true) false
        (SceneNode.node 0 ObjKind.mesh false false [])).map eventId).Nodup ∧
      (∀ i m, some m ∈ slotMaterials
          ((({ visible := fun _ => true, material := fun _ => MaterialSlot.single (some 1),
               matProps := fun _ => { supported := true, aoMap := some 5, lightMap := none },
               stash := fun _ => none, sceneLights := 0,
               nextMatId := 2 } : SceneState)).material i) →
        m < (2 : ℕ))) ∧
    ((∃ e, withLightScene (ε := Unit) true 0
          (SceneNode.node 0 ObjKind.mesh false false [])
          { visible := fun _ => true, material := fun _ => MaterialSlot.single (some 1),
            matProps := fun _ => { supported := true, aoMap := some 5, lightMap := none },
            stash := fun _ => none, sceneLights := 0, nextMatId := 2 }
          (Except.ok ()) =
        Except.error e) ↔
      ∃ ev ∈ traverseNode (fun _ => true) false
          (SceneNode.node 0 ObjKind.mesh false false []), ∃ i,
        ev = TEvent.yielded i ObjKind.mesh ∧
        ∃ mo ∈ slotMaterials (MaterialSlot.single (some 1)), ∃ m, mo = some m ∧
          (({ supported := true, aoMap := some 5, lightMap := none } : LMat)).supported = true ∧
          (if (true : Bool) = true then
            ∃ t, (({ supported := true, aoMap := some 5, lightMap := none } : LMat)).aoMap =
              some t ∧ t ≠ 0
           else
            ∃ t, (({ supported := true, aoMap := some 5, lightMap := none } : LMat)).lightMap =
              some t ∧ t ≠ 0)) :=
  ⟨⟨by decide, by intro i m hm; simp [slotMaterials] at hm; omega⟩,
    claim_C9_preexisting_map_error true 0
      (SceneNode.node 0 ObjKind.mesh false false [])
      { visible := fun _ => true, material := fun _ => MaterialSlot.single (some 1),
        matProps := fun _ => { supported := true, aoMap := some 5, lightMap := none },
        stash := fun _ => none, sceneLights := 0, nextMatId := 2 }
      (Except.ok ())
      (by decide) (by intro i m hm; simp [slotMaterials] at hm; show m < 2; omega)⟩

end ClaimC9

end RTL
